import Mathlib

/-!
Verification development for the zipatch-rust repository: a shallow
embedding of the ZiPatch chunked binary decoder and command executor,
with theorems about the checksum framing, position discipline, SQPK
sub-command codec, pack-file naming, compressed-block framing, the
delete-data mutation, the change-set pass, and the open-with-retry loop.

Machine integers are modelled as `Nat`/`Int` with explicit wrapping where
the Rust code wraps.  Byte streams are `List Nat` (each element a byte
value) together with a cursor position; the CRC32-folding reader carries
the rolling hasher state alongside.  Fallible operations return `Except`.
-/

set_option maxHeartbeats 1000000
set_option maxRecDepth 8192

deriving instance DecidableEq for Except

namespace ZiPatchRust

/-! ## Byte and two's-complement helpers -/

/-- Big-endian value of a byte list (as in `byteorder::BigEndian`). -/
def beNat (bs : List Nat) : Nat := bs.foldl (fun a b => a * 256 + b) 0

/-- Little-endian value of a byte list. -/
def leNat (bs : List Nat) : Nat := beNat bs.reverse

/-- Reinterpret a `w`-bit unsigned value as the signed two's-complement value. -/
def toSigned (w : Nat) (v : Nat) : Int :=
  if v < 2 ^ (w - 1) then (v : Int) else (v : Int) - 2 ^ w

/-- Rust `as u32` on an integer value (two's-complement truncation). -/
def u32OfInt (x : Int) : Nat := (x.emod (2 ^ 32)).toNat

/-- Rust `as u64`/`as usize` on an integer value (sign-extend then reinterpret). -/
def u64OfInt (x : Int) : Nat := (x.emod (2 ^ 64)).toNat

/-- Wrapping `i32` arithmetic result of an exact integer computation. -/
def i32Wrap (x : Int) : Int := toSigned 32 (u32OfInt x)

/-- `i32::to_le_bytes` of the `i32` holding integer `x`. -/
def i32ToLeBytes (x : Int) : List Nat :=
  let v := u32OfInt x
  [v % 256, v / 256 % 256, v / 65536 % 256, v / 16777216 % 256]

/-! ## CRC32 (IEEE), as used by the checksum-folding reader -/

/-- Reflected IEEE CRC-32 polynomial. -/
def crc32Poly : Nat := 0xEDB88320

/-- One bit round of the right-shifting CRC-32. -/
def crcRound (c : Nat) : Nat :=
  if c % 2 = 1 then Nat.xor (c / 2) crc32Poly else c / 2

/-- Modelled from the spec: the repository delegates CRC32 to the external
`crc32fast` crate (`src/util/crc32.rs`), which the spec describes as the
standard IEEE polynomial; this is the canonical bitwise CRC-32 hasher step
folding one byte into the rolling state. -/
def crcByte (c b : Nat) : Nat := crcRound^[8] (Nat.xor c (b % 256))

/-- Fold a byte list into the rolling CRC-32 state (`Crc32::update`). -/
def crcUpdate (c : Nat) (bs : List Nat) : Nat := bs.foldl crcByte c

/-- Fresh hasher state (`Crc32::new` / `Crc32::init`). -/
def crcInitState : Nat := 0xFFFFFFFF

/-- `Crc32::finalize`: xor-out of the rolling state. -/
def crc32Finalize (c : Nat) : Nat := Nat.xor c 0xFFFFFFFF

/-- `Crc32::calculate`: one-shot CRC-32 of a byte list. -/
def crc32Calculate (bs : List Nat) : Nat := crc32Finalize (crcUpdate crcInitState bs)

/-! ## Error type (`src/error.rs`, the variants the decoder core produces) -/

/-- `std::io::ErrorKind` values distinguished by the open-with-retry loop. -/
inductive IoErrorKind where
  | permissionDenied
  | wouldBlock
  | notFound
  | otherKind
deriving Repr, DecidableEq

/-- `ZiPatchError` variants reachable from the embedded decoder core.  All
I/O failures (short reads) collapse into `ioError`; `nonTermination` is a
model artefact marking inputs on which the Rust block-reading loop would
spin forever (on-wire block length of zero). -/
inductive ZErr where
  | ioError
  | checksumMismatch (offset : Nat) (expected : Nat) (actual : Nat)
  | unknownChunkType (tag : String) (offset : Nat)
  | unknownSqpkCommand (cmd : Nat) (offset : Nat)
  | sqpkSizeMismatch (outer : Nat) (inner : Int)
  | invalidFileHeaderVersion (v : Nat)
  | invalidPlatform (v : Nat)
  | decompressionFailed
  | nonTermination
deriving Repr, DecidableEq

/-! ## Checksummed stream (`ChecksumReader` over a cursor) -/

/-- A byte stream wrapped in the CRC32-folding reader: the underlying
bytes, the cursor position, and the rolling CRC-32 hasher state. -/
structure CRStream where
  data : List Nat
  pos : Nat
  crc : Nat
deriving Repr, DecidableEq

/-- `read_exact` of `n` bytes through the checksum reader: the bytes are
folded into the CRC; a short read fails without folding. -/
def readBytes (n : Nat) (s : CRStream) : Except ZErr (List Nat × CRStream) :=
  if s.pos + n ≤ s.data.length then
    let bs := (s.data.drop s.pos).take n
    .ok (bs, ⟨s.data, s.pos + n, crcUpdate s.crc bs⟩)
  else
    .error .ioError

/-- Read a single byte (`read_exact` into a 1-byte buffer). -/
def readByte (s : CRStream) : Except ZErr (Nat × CRStream) := do
  let (bs, s) ← readBytes 1 s
  pure (bs.headD 0, s)

/-- `read_u16::<BigEndian>`. -/
def readU16BE (s : CRStream) : Except ZErr (Nat × CRStream) := do
  let (bs, s) ← readBytes 2 s
  pure (beNat bs, s)

/-- `read_i16::<BigEndian>`. -/
def readI16BE (s : CRStream) : Except ZErr (Int × CRStream) := do
  let (bs, s) ← readBytes 2 s
  pure (toSigned 16 (beNat bs), s)

/-- `read_u32::<BigEndian>`. -/
def readU32BE (s : CRStream) : Except ZErr (Nat × CRStream) := do
  let (bs, s) ← readBytes 4 s
  pure (beNat bs, s)

/-- `read_i32::<BigEndian>`. -/
def readI32BE (s : CRStream) : Except ZErr (Int × CRStream) := do
  let (bs, s) ← readBytes 4 s
  pure (toSigned 32 (beNat bs), s)

/-- `read_u32::<LittleEndian>`. -/
def readU32LE (s : CRStream) : Except ZErr (Nat × CRStream) := do
  let (bs, s) ← readBytes 4 s
  pure (leNat bs, s)

/-- `read_i32::<LittleEndian>`. -/
def readI32LE (s : CRStream) : Except ZErr (Int × CRStream) := do
  let (bs, s) ← readBytes 4 s
  pure (toSigned 32 (leNat bs), s)

/-- `read_u64::<BigEndian>`. -/
def readU64BE (s : CRStream) : Except ZErr (Nat × CRStream) := do
  let (bs, s) ← readBytes 8 s
  pure (beNat bs, s)

/-- `read_i64::<BigEndian>`. -/
def readI64BE (s : CRStream) : Except ZErr (Int × CRStream) := do
  let (bs, s) ← readBytes 8 s
  pure (toSigned 64 (beNat bs), s)

/-- `u64::from_le_bytes` of an 8-byte `read_exact` (used by target-info). -/
def readU64LE (s : CRStream) : Except ZErr (Nat × CRStream) := do
  let (bs, s) ← readBytes 8 s
  pure (leNat bs, s)

/-! ## `String::from_utf8_lossy` and `read_fixed_string` -/

/-- The Unicode replacement character emitted by lossy UTF-8 decoding. -/
def replChar : Char := Char.ofNat 0xFFFD

/-- Decode one UTF-8 sequence whose lead byte is `b` and whose remaining
input is `rest`; returns the decoded (or replacement) character and the
total number of bytes consumed (at least one, the lead byte). -/
def utf8Step (b : Nat) (rest : List Nat) : Char × Nat :=
  if b < 128 then
    (Char.ofNat b, 1)
  else if b < 194 then
    (replChar, 1)
  else if b < 224 then
    match rest with
    | [] => (replChar, 1)
    | b2 :: _ =>
      if 128 ≤ b2 ∧ b2 < 192 then
        (Char.ofNat ((b - 192) * 64 + (b2 - 128)), 2)
      else
        (replChar, 1)
  else if b < 240 then
    match rest with
    | [] => (replChar, 1)
    | b2 :: r2 =>
      if (if b = 224 then 160 ≤ b2 ∧ b2 < 192
          else if b = 237 then 128 ≤ b2 ∧ b2 < 160
          else 128 ≤ b2 ∧ b2 < 192) then
        match r2 with
        | [] => (replChar, 2)
        | b3 :: _ =>
          if 128 ≤ b3 ∧ b3 < 192 then
            (Char.ofNat ((b - 224) * 4096 + (b2 - 128) * 64 + (b3 - 128)), 3)
          else
            (replChar, 2)
      else
        (replChar, 1)
  else if b < 245 then
    match rest with
    | [] => (replChar, 1)
    | b2 :: r2 =>
      if (if b = 240 then 144 ≤ b2 ∧ b2 < 192
          else if b = 244 then 128 ≤ b2 ∧ b2 < 144
          else 128 ≤ b2 ∧ b2 < 192) then
        match r2 with
        | [] => (replChar, 2)
        | b3 :: r3 =>
          if 128 ≤ b3 ∧ b3 < 192 then
            match r3 with
            | [] => (replChar, 3)
            | b4 :: _ =>
              if 128 ≤ b4 ∧ b4 < 192 then
                (Char.ofNat ((b - 240) * 262144 + (b2 - 128) * 4096 +
                    (b3 - 128) * 64 + (b4 - 128)), 4)
              else
                (replChar, 3)
          else
            (replChar, 2)
      else
        (replChar, 1)
  else
    (replChar, 1)

/-- Iteration of the lossy decoder; the fuel argument only bounds the
number of sequences and is supplied as the input length (each sequence
consumes at least one byte, so that fuel never runs out). -/
def utf8LossyGo : Nat → List Nat → List Char
  | 0, _ => []
  | fuel + 1, l =>
    match l with
    | [] => []
    | b :: rest =>
      let (c, k) := utf8Step b rest
      c :: utf8LossyGo fuel (rest.drop (k - 1))

/-- Lossy UTF-8 decoding of a byte list (maximal-valid-subpart policy, as
in `String::from_utf8_lossy`). -/
def utf8LossyAux (l : List Nat) : List Char := utf8LossyGo l.length l

/-- `String::from_utf8_lossy(bytes).into_owned()`. -/
def utf8Lossy (bs : List Nat) : String := String.mk (utf8LossyAux bs)

/-- `read_fixed_string`: read `n` bytes, truncate at the first NUL, decode
lossily. -/
def readFixedString (n : Nat) (s : CRStream) : Except ZErr (String × CRStream) := do
  let (bs, s) ← readBytes n s
  pure (utf8Lossy (bs.takeWhile (fun b => b != 0)), s)

/-! ## Number formatting (Rust `format!` `{:x}` / `{}` on unsigned values) -/

/-- Lowercase digit character for a value below 16. -/
def digitChar (d : Nat) : Char :=
  if d < 10 then Char.ofNat (48 + d) else Char.ofNat (87 + d)

/-- Hex digit characters of `n`, most significant first (Rust `{:x}`).
The fuel argument only bounds the digit count; the wrapper supplies
`n + 1`, which always suffices since the value shrinks 16-fold per step. -/
def hexAux : Nat → Nat → List Char → List Char
  | 0, _, acc => acc
  | fuel + 1, n, acc =>
    if n < 16 then digitChar n :: acc
    else hexAux fuel (n / 16) (digitChar (n % 16) :: acc)

/-- Rust `format!` with `{:x}` (lowercase hex, no padding). -/
def natHexStr (n : Nat) : String := String.mk (hexAux (n + 1) n [])

/-- Rust `format!` with `{:0Wx}`: zero-pad the hex digits to width `w`. -/
def rustHexPad (w n : Nat) : String :=
  let s := natHexStr n
  if s.length < w then String.mk (List.replicate (w - s.length) '0') ++ s else s

/-- Decimal digit characters of `n`, most significant first (Rust `{}`);
fuel as in `hexAux`. -/
def decAux : Nat → Nat → List Char → List Char
  | 0, _, acc => acc
  | fuel + 1, n, acc =>
    if n < 10 then digitChar n :: acc
    else decAux fuel (n / 10) (digitChar (n % 10) :: acc)

/-- Rust `format!` with `{}` on an unsigned integer. -/
def natDecStr (n : Nat) : String := String.mk (decAux (n + 1) n [])

/-! ## Platform and pack-file naming (`src/config.rs`, `src/util/sqpack_file.rs`,
`src/util/sqex_file.rs`) -/

/-- `Platform` enum. -/
inductive Platform where
  | win32
  | ps3
  | ps4
  | unknown
deriving Repr, DecidableEq

/-- `Platform::from_u16`. -/
def Platform.fromU16 (v : Nat) : Except ZErr Platform :=
  match v with
  | 0 => .ok .win32
  | 1 => .ok .ps3
  | 2 => .ok .ps4
  | 3 => .ok .unknown
  | _ => .error (.invalidPlatform (v % 256))

/-- Platform name used inside pack-file base filenames. -/
def Platform.toStr : Platform → String
  | .win32 => "win32"
  | .ps3 => "ps3"
  | .ps4 => "ps4"
  | .unknown => "unknown"

/-- `SqexFile::get_expansion_folder`. -/
def getExpansionFolder (expansionId : Nat) : String :=
  if expansionId = 0 then "ffxiv" else "ex" ++ natDecStr expansionId

/-- `SqpackFile::get_expansion_path` (shared by the dat/index variants). -/
def getExpansionPath (expansionId : Nat) : String :=
  "/sqpack/" ++ getExpansionFolder expansionId ++ "/"

/-- `SqpackFile` (pack-file identity plus the embedded `SqexFile` path). -/
structure SqpackFile where
  mainId : Nat
  subId : Nat
  fileId : Nat
  relativePath : String
deriving Repr, DecidableEq

/-- `SqpackFile::expansion_id`: `(sub_id >> 8) as u8`. -/
def SqpackFile.expansionId (f : SqpackFile) : Nat := f.subId / 256 % 256

/-- `SqpackFile::get_base_filename`. -/
def SqpackFile.getBaseFilename (f : SqpackFile) (p : Platform) : String :=
  rustHexPad 2 f.mainId ++ rustHexPad 4 f.subId ++ "." ++ p.toStr

/-- `SqpackFile::read_from`: 8-byte identifier, path seeded with the
expansion path. -/
def SqpackFile.readFrom (s : CRStream) : Except ZErr (SqpackFile × CRStream) := do
  let (mainId, s) ← readU16BE s
  let (subId, s) ← readU16BE s
  let (fileId, s) ← readU32BE s
  let expansionId := subId / 256 % 256
  pure (⟨mainId, subId, fileId, getExpansionPath expansionId⟩, s)

/-- `SqpackDatFile`. -/
structure SqpackDatFile where
  sqpack : SqpackFile
deriving Repr, DecidableEq

/-- `SqpackDatFile::read_from`. -/
def SqpackDatFile.readFrom (s : CRStream) : Except ZErr (SqpackDatFile × CRStream) := do
  let (f, s) ← SqpackFile.readFrom s
  pure (⟨f⟩, s)

/-- `SqpackDatFile::get_file_name`. -/
def SqpackDatFile.getFileName (d : SqpackDatFile) (p : Platform) : String :=
  getExpansionPath d.sqpack.expansionId ++ d.sqpack.getBaseFilename p ++
    ".dat" ++ natDecStr d.sqpack.fileId

/-- `SqpackIndexFile`. -/
structure SqpackIndexFile where
  sqpack : SqpackFile
deriving Repr, DecidableEq

/-- `SqpackIndexFile::read_from`. -/
def SqpackIndexFile.readFrom (s : CRStream) : Except ZErr (SqpackIndexFile × CRStream) := do
  let (f, s) ← SqpackFile.readFrom s
  pure (⟨f⟩, s)

/-- `SqpackIndexFile::get_file_name`. -/
def SqpackIndexFile.getFileName (d : SqpackIndexFile) (p : Platform) : String :=
  let indexSuffix := if d.sqpack.fileId = 0 then "" else natDecStr d.sqpack.fileId
  getExpansionPath d.sqpack.expansionId ++ d.sqpack.getBaseFilename p ++
    ".index" ++ indexSuffix

/-! ## Simple chunk bodies (`src/chunk/*.rs`) -/

/-- `ApplyOptionKind`. -/
inductive ApplyOptionKind where
  | ignoreMissing
  | ignoreOldMismatch
  | unknown
deriving Repr, DecidableEq

/-- `ApplyOptionKind::from_u32`. -/
def ApplyOptionKind.fromU32 (v : Nat) : ApplyOptionKind :=
  if v = 1 then .ignoreMissing else if v = 2 then .ignoreOldMismatch else .unknown

/-- `ApplyOptionChunk`. -/
structure ApplyOptionChunk where
  optionKind : ApplyOptionKind
  optionValue : Bool
deriving Repr, DecidableEq

/-- `ApplyOptionChunk::read`. -/
def ApplyOptionChunk.read (s : CRStream) (_size : Nat) :
    Except ZErr (ApplyOptionChunk × CRStream) := do
  let (optionKindValue, s) ← readU32BE s
  let optionKind := ApplyOptionKind.fromU32 optionKindValue
  let (_padding, s) ← readBytes 4 s
  let (valueRaw, s) ← readU32BE s
  let value := valueRaw != 0
  let optionValue :=
    match optionKind with
    | .ignoreMissing | .ignoreOldMismatch => value
    | .unknown => false
  pure (⟨optionKind, optionValue⟩, s)

/-- `ApplyFreeSpaceChunk`. -/
structure ApplyFreeSpaceChunk where
  unknownFieldA : Int
  unknownFieldB : Int
deriving Repr, DecidableEq

/-- `ApplyFreeSpaceChunk::read`. -/
def ApplyFreeSpaceChunk.read (s : CRStream) (_size : Nat) :
    Except ZErr (ApplyFreeSpaceChunk × CRStream) := do
  let (a, s) ← readI64BE s
  let (b, s) ← readI64BE s
  pure (⟨a, b⟩, s)

/-- `AddDirectoryChunk`. -/
structure AddDirectoryChunk where
  dirName : String
deriving Repr, DecidableEq

/-- `AddDirectoryChunk::read`. -/
def AddDirectoryChunk.read (s : CRStream) (_size : Nat) :
    Except ZErr (AddDirectoryChunk × CRStream) := do
  let (dirNameLen, s) ← readU32BE s
  let (dirName, s) ← readFixedString dirNameLen s
  pure (⟨dirName⟩, s)

/-- `DeleteDirectoryChunk`. -/
structure DeleteDirectoryChunk where
  dirName : String
deriving Repr, DecidableEq

/-- `DeleteDirectoryChunk::read`. -/
def DeleteDirectoryChunk.read (s : CRStream) (_size : Nat) :
    Except ZErr (DeleteDirectoryChunk × CRStream) := do
  let (dirNameLen, s) ← readU32BE s
  let (dirName, s) ← readFixedString dirNameLen s
  pure (⟨dirName⟩, s)

/-! ## File header chunk (`src/chunk/file_header.rs`) -/

/-- `ZiPatchCommandCounts` (`src/inspection/command_counts.rs`). -/
structure ZiPatchCommandCounts where
  addDirectories : Nat
  deleteDirectories : Nat
  totalCommands : Nat
  sqpkAddCommands : Nat
  sqpkDeleteCommands : Nat
  sqpkExpandCommands : Nat
  sqpkHeaderCommands : Nat
  sqpkFileCommands : Nat
deriving Repr, DecidableEq

/-- `FileHeaderChunk`. -/
structure FileHeaderChunk where
  version : Nat
  patchType : String
  entryFiles : Nat
  commandCounts : Option ZiPatchCommandCounts
  addDirectories : Nat
  deleteDirectories : Nat
  deleteDataSize : Int
  minorVersion : Nat
  repositoryName : Nat
deriving Repr, DecidableEq

/-- `FileHeaderChunk::read`.  The version byte is
`(version_field >> 16) as u8` of the little-endian first word. -/
def FileHeaderChunk.read (s : CRStream) (_size : Nat) :
    Except ZErr (FileHeaderChunk × CRStream) := do
  let (versionField, s) ← readU32LE s
  let version := versionField / 65536 % 256
  if version ≠ 2 ∧ version ≠ 3 then
    throw (.invalidFileHeaderVersion version)
  let (patchType, s) ← readFixedString 4 s
  let (entryFiles, s) ← readU32BE s
  if version = 3 then
    let (adir, s) ← readU32BE s
    let (deld, s) ← readU32BE s
    let (deleteSizeLow, s) ← readU32BE s
    let (deleteSizeHigh, s) ← readU32BE s
    let deleteSize : Int := ((Nat.lor deleteSizeLow (deleteSizeHigh <<< 32) : Nat) : Int)
    let (minorVer, s) ← readU32BE s
    let (repoName, s) ← readU32BE s
    let (total, s) ← readU32BE s
    let (sqpkAdd, s) ← readU32BE s
    let (sqpkDelete, s) ← readU32BE s
    let (sqpkExpand, s) ← readU32BE s
    let (sqpkHeader, s) ← readU32BE s
    let (sqpkFile, s) ← readU32BE s
    let counts : ZiPatchCommandCounts :=
      ⟨adir, deld, total, sqpkAdd, sqpkDelete, sqpkExpand, sqpkHeader, sqpkFile⟩
    pure (⟨version, patchType, entryFiles, some counts, adir, deld, deleteSize,
      minorVer, repoName⟩, s)
  else
    pure (⟨version, patchType, entryFiles, none, 0, 0, 0, 0, 0⟩, s)

/-! ## Compressed blocks (`src/util/compressed_block.rs`) -/

/-- `SqpkCompressedBlock`. -/
structure SqpkCompressedBlock where
  headerSize : Int
  compressedSize : Int
  decompressedSize : Int
  compressedBlock : List Nat
deriving Repr, DecidableEq

/-- `SqpkCompressedBlock::calculate_compressed_block_length`:
`(size + 143) & 0xFFFF_FF80u32 as i32` in wrapping `i32` arithmetic. -/
def calculateCompressedBlockLength (compressedSize decompressedSize : Int) : Int :=
  let size := if compressedSize ≠ 0x7d00 then compressedSize else decompressedSize
  toSigned 32 (Nat.land (u32OfInt (size + 143)) 0xFFFFFF80)

/-- `SqpkCompressedBlock::is_compressed`. -/
def SqpkCompressedBlock.isCompressed (b : SqpkCompressedBlock) : Bool :=
  b.compressedSize != 0x7d00

/-- `SqpkCompressedBlock::compressed_block_length`. -/
def SqpkCompressedBlock.compressedBlockLength (b : SqpkCompressedBlock) : Int :=
  calculateCompressedBlockLength b.compressedSize b.decompressedSize

/-- `SqpkCompressedBlock::read_from`.  The byte-count expressions keep the
Rust casts: `i32` differences wrap, and `as usize` sign-extends into the
64-bit address space. -/
def SqpkCompressedBlock.readFrom (s : CRStream) :
    Except ZErr (SqpkCompressedBlock × CRStream) := do
  let (headerSize, s) ← readI32LE s
  let (_pad, s) ← readU32LE s
  let (compressedSize, s) ← readI32LE s
  let (decompressedSize, s) ← readI32LE s
  let compressedBlockLength := calculateCompressedBlockLength compressedSize decompressedSize
  if compressedSize != 0x7d00 then
    let (block, s) ← readBytes (u64OfInt (i32Wrap (compressedBlockLength - headerSize))) s
    pure (⟨headerSize, compressedSize, decompressedSize, block⟩, s)
  else
    let (block, s) ← readBytes (u64OfInt decompressedSize) s
    let paddingSize := i32Wrap (i32Wrap (compressedBlockLength - headerSize) - decompressedSize)
    if paddingSize > 0 then
      let (_, s) ← readBytes (u64OfInt paddingSize) s
      pure (⟨headerSize, compressedSize, decompressedSize, block⟩, s)
    else
      pure (⟨headerSize, compressedSize, decompressedSize, block⟩, s)

/-- `SqpkCompressedBlock::decompress_into`.  The external `flate2` deflate
decoder is abstracted as the argument `inflate` (`none` models a deflate
stream the decoder rejects); `out` is the sink contents, which `write_all`
extends. -/
def SqpkCompressedBlock.decompressInto (inflate : List Nat → Option (List Nat))
    (b : SqpkCompressedBlock) (out : List Nat) : Except ZErr (List Nat) :=
  if b.compressedSize != 0x7d00 then
    match inflate b.compressedBlock with
    | some decoded => .ok (out ++ decoded)
    | none => .error .decompressionFailed
  else
    .ok (out ++ b.compressedBlock)

/-! ## SQPK sub-commands (`src/chunk/sqpk/*.rs`) -/

/-- `SqexFile` (`src/util/sqex_file.rs`). -/
structure SqexFile where
  relativePath : String
deriving Repr, DecidableEq

/-- `OperationKind` of the SQPK file command. -/
inductive OperationKind where
  | addFile
  | removeAll
  | deleteFile
  | makeDirTree
deriving Repr, DecidableEq

/-- `OperationKind::from_u8` (`b'A'`, `b'R'`, `b'D'`, `b'M'`). -/
def OperationKind.fromU8 (v : Nat) : Option OperationKind :=
  if v = 65 then some .addFile
  else if v = 82 then some .removeAll
  else if v = 68 then some .deleteFile
  else if v = 77 then some .makeDirTree
  else none

/-- `SqpkFile`. -/
structure SqpkFile where
  operation : OperationKind
  fileOffset : Int
  fileSize : Int
  expansionId : Nat
  targetFile : SqexFile
  compressedData : List SqpkCompressedBlock
deriving Repr, DecidableEq

/-- The on-wire byte count the block-reading loop in `SqpkFile::read`
attributes to one block:
`block.header_size as u64 + (block.compressed_block_length() - block.header_size) as u64`,
with the wrapping `i32` subtraction and wrapping `u64` addition kept. -/
def blockOnWireBytes (b : SqpkCompressedBlock) : Nat :=
  (u64OfInt b.headerSize +
    u64OfInt (i32Wrap (b.compressedBlockLength - b.headerSize))) % 2 ^ 64

/-- The `while bytes_remaining > 0` loop of `SqpkFile::read`.  A block
whose on-wire byte count is zero makes the Rust loop spin forever; the
model surfaces that as the `nonTermination` error.  The fuel argument only
bounds the iteration count; the wrapper supplies the initial
`bytes_remaining`, which always suffices since every iteration shrinks
`bytes_remaining` by at least one. -/
def readBlocksGo : Nat → CRStream → Nat →
    Except ZErr (List SqpkCompressedBlock × CRStream)
  | 0, s, bytesRemaining =>
    if bytesRemaining = 0 then .ok ([], s) else throw .nonTermination
  | fuel + 1, s, bytesRemaining =>
    if bytesRemaining = 0 then .ok ([], s)
    else do
      let (block, s') ← SqpkCompressedBlock.readFrom s
      let blockBytes := blockOnWireBytes block
      if blockBytes = 0 then throw .nonTermination
      else do
        let (rest, s'') ← readBlocksGo fuel s' (bytesRemaining - blockBytes)
        pure (block :: rest, s'')

/-- The block-reading loop entered with `bytes_remaining` bytes left. -/
def readBlocksLoop (s : CRStream) (bytesRemaining : Nat) :
    Except ZErr (List SqpkCompressedBlock × CRStream) :=
  readBlocksGo bytesRemaining s bytesRemaining

/-- Everything `SqpkFile::read` does after the operation byte has been
read and classified (the remainder of the decoder depends on the byte only
through `operation`). -/
def SqpkFile.readRest (operation : OperationKind) (s : CRStream)
    (remainingSize : Nat) : Except ZErr (SqpkFile × CRStream) := do
  let (_alignment, s) ← readBytes 2 s
  let (fileOffset, s) ← readI64BE s
  let (fileSize, s) ← readI64BE s
  let (pathLen, s) ← readU32BE s
  let (expansionId, s) ← readU16BE s
  let (_padding, s) ← readBytes 2 s
  let (path, s) ← readFixedString pathLen s
  let headerBytes := (1 + 2 + 8 + 8 + 4 + 2 + 2 + pathLen) % 2 ^ 32
  let bytesRemaining := remainingSize - headerBytes
  if operation = .addFile then
    let (compressedData, s) ← readBlocksLoop s bytesRemaining
    pure (⟨operation, fileOffset, fileSize, expansionId, ⟨path⟩, compressedData⟩, s)
  else
    pure (⟨operation, fileOffset, fileSize, expansionId, ⟨path⟩, []⟩, s)

/-- `SqpkFile::read`: an unrecognised operation byte falls back to
`AddFile` via `unwrap_or`. -/
def SqpkFile.read (s : CRStream) (remainingSize : Nat) :
    Except ZErr (SqpkFile × CRStream) := do
  let (operationByte, s) ← readByte s
  SqpkFile.readRest ((OperationKind.fromU8 operationByte).getD .addFile) s remainingSize

/-- `TargetFileKind` of the SQPK header command. -/
inductive TargetFileKind where
  | dat
  | index
deriving Repr, DecidableEq

/-- `TargetFileKind::from_u8` (`b'D'`, `b'I'`). -/
def TargetFileKind.fromU8 (v : Nat) : Option TargetFileKind :=
  if v = 68 then some .dat else if v = 73 then some .index else none

/-- `TargetHeaderKind`. -/
inductive TargetHeaderKind where
  | version
  | index
  | data
deriving Repr, DecidableEq

/-- `TargetHeaderKind::from_u8` (`b'V'`, `b'I'`, `b'D'`). -/
def TargetHeaderKind.fromU8 (v : Nat) : Option TargetHeaderKind :=
  if v = 86 then some .version
  else if v = 73 then some .index
  else if v = 68 then some .data
  else none

/-- `TargetFile`. -/
inductive TargetFile where
  | dat (d : SqpackDatFile)
  | index (i : SqpackIndexFile)
deriving Repr, DecidableEq

/-- `SqpkHeader`. -/
structure SqpkHeader where
  fileKind : TargetFileKind
  headerKind : TargetHeaderKind
  targetFile : TargetFile
  headerData : List Nat
deriving Repr, DecidableEq

/-- `SqpkHeader::read` (`HEADER_SIZE = 1024`). -/
def SqpkHeader.read (s : CRStream) : Except ZErr (SqpkHeader × CRStream) := do
  let (fileKindByte, s) ← readByte s
  let (headerKindByte, s) ← readByte s
  let (_alignment, s) ← readByte s
  let fileKind := (TargetFileKind.fromU8 fileKindByte).getD .dat
  let headerKind := (TargetHeaderKind.fromU8 headerKindByte).getD .version
  let (targetFile, s) ←
    match fileKind with
    | .dat => (SqpackDatFile.readFrom s).map (fun (d, s) => (TargetFile.dat d, s))
    | .index => (SqpackIndexFile.readFrom s).map (fun (i, s) => (TargetFile.index i, s))
  let (headerData, s) ← readBytes 1024 s
  pure (⟨fileKind, headerKind, targetFile, headerData⟩, s)

/-- `IndexCommandKind`. -/
inductive IndexCommandKind where
  | add
  | delete
deriving Repr, DecidableEq

/-- `IndexCommandKind::from_u8` (`b'A'`, `b'D'`). -/
def IndexCommandKind.fromU8 (v : Nat) : Option IndexCommandKind :=
  if v = 65 then some .add else if v = 68 then some .delete else none

/-- `SqpkIndex`. -/
structure SqpkIndex where
  indexCommand : IndexCommandKind
  isSynonym : Bool
  targetFile : SqpackIndexFile
  fileHash : Nat
  blockOffset : Nat
  blockNumber : Nat
deriving Repr, DecidableEq

/-- `SqpkIndex::read`. -/
def SqpkIndex.read (s : CRStream) : Except ZErr (SqpkIndex × CRStream) := do
  let (indexCommandByte, s) ← readByte s
  let indexCommand := (IndexCommandKind.fromU8 indexCommandByte).getD .add
  let (isSynonymByte, s) ← readByte s
  let isSynonym := isSynonymByte != 0
  let (_alignment, s) ← readByte s
  let (targetFile, s) ← SqpackIndexFile.readFrom s
  let (fileHash, s) ← readU64BE s
  let (blockOffset, s) ← readU32BE s
  let (blockNumber, s) ← readU32BE s
  pure (⟨indexCommand, isSynonym, targetFile, fileHash, blockOffset, blockNumber⟩, s)

/-- `SqpkPatchInfo`. -/
structure SqpkPatchInfo where
  status : Nat
  version : Nat
  installSize : Nat
deriving Repr, DecidableEq

/-- `SqpkPatchInfo::read`. -/
def SqpkPatchInfo.read (s : CRStream) : Except ZErr (SqpkPatchInfo × CRStream) := do
  let (status, s) ← readByte s
  let (version, s) ← readByte s
  let (_alignment, s) ← readByte s
  let (installSize, s) ← readU64BE s
  pure (⟨status, version, installSize⟩, s)

/-- `RegionId` (every value decodes to `Global`). -/
inductive RegionId where
  | global
deriving Repr, DecidableEq

/-- `RegionId::from_i16`. -/
def RegionId.fromI16 (_ : Int) : RegionId := .global

/-- `SqpkTargetInfo`. -/
structure SqpkTargetInfo where
  platform : Platform
  region : RegionId
  isDebug : Bool
  version : Nat
  deletedDataSize : Nat
  seekCount : Nat
deriving Repr, DecidableEq

/-- `SqpkTargetInfo::read`. -/
def SqpkTargetInfo.read (s : CRStream) : Except ZErr (SqpkTargetInfo × CRStream) := do
  let (_reserved, s) ← readBytes 3 s
  let (platformValue, s) ← readU16BE s
  let platform ← Platform.fromU16 platformValue
  let (regionValue, s) ← readI16BE s
  let region := RegionId.fromI16 regionValue
  let (isDebugRaw, s) ← readI16BE s
  let isDebug := isDebugRaw != 0
  let (version, s) ← readU16BE s
  let (deletedDataSize, s) ← readU64LE s
  let (seekCount, s) ← readU64LE s
  pure (⟨platform, region, isDebug, version, deletedDataSize, seekCount⟩, s)

/-- `SqpkAddData`. -/
structure SqpkAddData where
  targetFile : SqpackDatFile
  blockOffset : Int
  blockNumber : Int
  blockDeleteNumber : Int
  blockData : List Nat
deriving Repr, DecidableEq

/-- `SqpkAddData::read`: the three `u32` fields are shifted left by 7 into
`i64` values, and `block_number as usize` bytes of payload follow. -/
def SqpkAddData.read (s : CRStream) : Except ZErr (SqpkAddData × CRStream) := do
  let (_alignment, s) ← readBytes 3 s
  let (targetFile, s) ← SqpackDatFile.readFrom s
  let (bo, s) ← readU32BE s
  let (bn, s) ← readU32BE s
  let (bd, s) ← readU32BE s
  let blockNumber := bn <<< 7
  let (blockData, s) ← readBytes blockNumber s
  pure (⟨targetFile, ((bo <<< 7 : Nat) : Int), (blockNumber : Int),
    ((bd <<< 7 : Nat) : Int), blockData⟩, s)

/-- `SqpkDeleteData`. -/
structure SqpkDeleteData where
  targetFile : SqpackDatFile
  blockOffset : Int
  blockNumber : Nat
deriving Repr, DecidableEq

/-- `SqpkDeleteData::read`. -/
def SqpkDeleteData.read (s : CRStream) : Except ZErr (SqpkDeleteData × CRStream) := do
  let (_alignment, s) ← readBytes 3 s
  let (targetFile, s) ← SqpackDatFile.readFrom s
  let (bo, s) ← readU32BE s
  let (blockNumber, s) ← readU32BE s
  let (_reserved, s) ← readU32BE s
  pure (⟨targetFile, ((bo <<< 7 : Nat) : Int), blockNumber⟩, s)

/-- `SqpkExpandData`. -/
structure SqpkExpandData where
  targetFile : SqpackDatFile
  blockOffset : Int
  blockNumber : Int
  blockDeleteNumber : Int
  blockData : List Nat
deriving Repr, DecidableEq

/-- Modelled from the spec: `src/chunk/sqpk/expand_data.rs` is declared by
`src/chunk/sqpk/mod.rs` but its source file is not present under `src/`;
the spec states Expand-data has the same framing as Add-data. -/
def SqpkExpandData.read (s : CRStream) : Except ZErr (SqpkExpandData × CRStream) := do
  let (_alignment, s) ← readBytes 3 s
  let (targetFile, s) ← SqpackDatFile.readFrom s
  let (bo, s) ← readU32BE s
  let (bn, s) ← readU32BE s
  let (bd, s) ← readU32BE s
  let blockNumber := bn <<< 7
  let (blockData, s) ← readBytes blockNumber s
  pure (⟨targetFile, ((bo <<< 7 : Nat) : Int), (blockNumber : Int),
    ((bd <<< 7 : Nat) : Int), blockData⟩, s)

/-- `SqpkCommand`. -/
inductive SqpkCommand where
  | addData (c : SqpkAddData)
  | deleteData (c : SqpkDeleteData)
  | expandData (c : SqpkExpandData)
  | file (c : SqpkFile)
  | header (c : SqpkHeader)
  | index (c : SqpkIndex)
  | patchInfo (c : SqpkPatchInfo)
  | targetInfo (c : SqpkTargetInfo)
deriving Repr, DecidableEq

/-- The `match command_char` dispatch of `SqpkCommand::read` (command
bytes `A D E F H I X T`); an unknown byte is the fatal
`UnknownSqpkCommand` error. -/
def SqpkCommand.readSub (cmdByte : Nat) (s : CRStream) (remainingSize : Nat)
    (offset : Nat) : Except ZErr (SqpkCommand × CRStream) :=
  match cmdByte with
  | 65 => (SqpkAddData.read s).map (fun (c, s) => (.addData c, s))
  | 68 => (SqpkDeleteData.read s).map (fun (c, s) => (.deleteData c, s))
  | 69 => (SqpkExpandData.read s).map (fun (c, s) => (.expandData c, s))
  | 70 => (SqpkFile.read s remainingSize).map (fun (c, s) => (.file c, s))
  | 72 => (SqpkHeader.read s).map (fun (c, s) => (.header c, s))
  | 73 => (SqpkIndex.read s).map (fun (c, s) => (.index c, s))
  | 88 => (SqpkPatchInfo.read s).map (fun (c, s) => (.patchInfo c, s))
  | 84 => (SqpkTargetInfo.read s).map (fun (c, s) => (.targetInfo c, s))
  | _ => .error (.unknownSqpkCommand cmdByte offset)

/-- `SqpkCommand::read`: inner size check (`inner_size != outer_size as i32`),
then command byte and dispatch with `remaining_size = outer_size.saturating_sub(5)`. -/
def SqpkCommand.read (s : CRStream) (outerSize : Nat) (offset : Nat) :
    Except ZErr (SqpkCommand × CRStream) := do
  let (innerSize, s) ← readI32BE s
  if innerSize ≠ toSigned 32 (outerSize % 2 ^ 32) then
    throw (.sqpkSizeMismatch outerSize innerSize)
  let (cmdByte, s) ← readByte s
  let remainingSize := outerSize - 5
  SqpkCommand.readSub cmdByte s remainingSize offset

/-! ## Outer chunk codec (`src/chunk/mod.rs`, `src/util/advance_guard.rs`) -/

/-- `ZiPatchChunk` (the `EOF_` and `XXXX` bodies carry no data). -/
inductive ZiPatchChunk where
  | fileHeader (c : FileHeaderChunk)
  | applyOption (c : ApplyOptionChunk)
  | applyFreeSpace (c : ApplyFreeSpaceChunk)
  | addDirectory (c : AddDirectoryChunk)
  | deleteDirectory (c : DeleteDirectoryChunk)
  | sqpk (c : SqpkCommand)
  | endOfFile
  | xxxx
deriving Repr, DecidableEq

/-- `ZiPatchChunk::is_eof`. -/
def ZiPatchChunk.isEof : ZiPatchChunk → Bool
  | .endOfFile => true
  | _ => false

/-- `ChecksumReader::init_crc32`. -/
def initCrc32 (s : CRStream) : CRStream := ⟨s.data, s.pos, crcInitState⟩

/-- `ChecksumReader::get_crc32`. -/
def getCrc32 (s : CRStream) : Nat := crc32Finalize s.crc

/-- The drain loop in `AdvanceGuard::drop`: consume the remaining bytes
through the checksum reader in buffered `read_exact` calls of at most
`bufLen` bytes; if a read fails, fall back to seeking to `offsetAfter`
(which does not fold the skipped bytes into the CRC).  The fuel argument
only bounds the iteration count; the wrapper supplies the byte count
`left`, which always suffices since every iteration consumes at least one
byte (for the wrapper's positive `bufLen`). -/
def drainGo (offsetAfter bufLen : Nat) : Nat → CRStream → Nat → CRStream
  | 0, s, _ => s
  | fuel + 1, s, left =>
    if left = 0 then s
    else
      let toRead := min left bufLen
      if s.pos + toRead ≤ s.data.length then
        drainGo offsetAfter bufLen fuel
          ⟨s.data, s.pos + toRead, crcUpdate s.crc ((s.data.drop s.pos).take toRead)⟩
          (left - toRead)
      else
        ⟨s.data, offsetAfter, s.crc⟩

/-- `AdvanceGuard::drop`: nothing happens unless the current position is
short of the guarded end; the drain buffer is `min remaining 8192` bytes. -/
def guardDrop (offsetAfter : Nat) (s : CRStream) : CRStream :=
  if s.pos < offsetAfter then
    drainGo offsetAfter (min (offsetAfter - s.pos) 8192) (offsetAfter - s.pos) s
      (offsetAfter - s.pos)
  else s

/-- The `match chunk_type.as_str()` dispatch of `ZiPatchChunk::read`. -/
def decodeBody (chunkType : String) (size offset : Nat) (s : CRStream) :
    Except ZErr (ZiPatchChunk × CRStream) :=
  if chunkType = "FHDR" then
    (FileHeaderChunk.read s size).map (fun (c, s) => (.fileHeader c, s))
  else if chunkType = "APLY" then
    (ApplyOptionChunk.read s size).map (fun (c, s) => (.applyOption c, s))
  else if chunkType = "APFS" then
    (ApplyFreeSpaceChunk.read s size).map (fun (c, s) => (.applyFreeSpace c, s))
  else if chunkType = "ADIR" then
    (AddDirectoryChunk.read s size).map (fun (c, s) => (.addDirectory c, s))
  else if chunkType = "DELD" then
    (DeleteDirectoryChunk.read s size).map (fun (c, s) => (.deleteDirectory c, s))
  else if chunkType = "SQPK" then
    (SqpkCommand.read s size offset).map (fun (c, s) => (.sqpk c, s))
  else if chunkType = "EOF_" then .ok (.endOfFile, s)
  else if chunkType = "XXXX" then .ok (.xxxx, s)
  else .error (.unknownChunkType chunkType offset)

/-- `ZiPatchChunk::read`: size word (uncovered by the CRC), CRC reset,
4-byte tag, guarded body decode, drain, checksum comparison.  The error
fields follow the source: `expected` is the trailing word read from the
stream and `actual` is the CRC the decoder accumulated. -/
def ZiPatchChunk.read (s0 : CRStream) : Except ZErr (ZiPatchChunk × CRStream) := do
  let offset := s0.pos
  let (size, s) ← readU32BE s0
  let s := initCrc32 s
  let (chunkType, s) ← readFixedString 4 s
  let offsetAfter := s.pos + size
  let (chunk, s) ← decodeBody chunkType size offset s
  let s := guardDrop offsetAfter s
  let calculatedChecksum := getCrc32 s
  let (expectedChecksum, s) ← readU32BE s
  if calculatedChecksum ≠ expectedChecksum then
    throw (.checksumMismatch offset expectedChecksum calculatedChecksum)
  pure (chunk, s)

/-! ## On-disk file mutation model (`src/util/sqex_file_stream.rs`,
`SqpackDatFile::write_empty_file_block_at`, `SqpkDeleteData::apply`) -/

/-- A writable file: its byte contents (as a total map from offsets) and
the current cursor position. -/
structure FileState where
  contents : Nat → Nat
  pos : Nat

/-- `write_all`: write the buffer at the current position and advance. -/
def writeAll (bs : List Nat) (fs : FileState) : FileState :=
  ⟨fun i => if fs.pos ≤ i ∧ i < fs.pos + bs.length then bs.getD (i - fs.pos) 0
            else fs.contents i,
   fs.pos + bs.length⟩

/-- `SqexFileStream::seek_to` (`SeekFrom::Start`). -/
def seekTo (offset : Nat) (fs : FileState) : FileState := ⟨fs.contents, offset⟩

/-- The full 64 KiB chunks of `SqexFileStream::wipe`. -/
def wipeChunksLoop : Nat → FileState → FileState
  | 0, fs => fs
  | k + 1, fs => wipeChunksLoop k (writeAll (List.replicate 65536 0) fs)

/-- `SqexFileStream::wipe`: zero `length` bytes at the current position in
64 KiB buffered writes plus a final partial write. -/
def wipe (length : Nat) (fs : FileState) : FileState :=
  let fs := wipeChunksLoop (length / 65536) fs
  let remaining := length % 65536
  if remaining > 0 then writeAll (List.replicate remaining 0) fs else fs

/-- `SqexFileStream::wipe_from_offset`: seek absolute, then wipe. -/
def wipeFromOffset (length : Nat) (offset : Nat) (fs : FileState) : FileState :=
  wipe length (seekTo offset fs)

/-- `SqpackDatFile::write_empty_file_block_at`: wipe
`(block_number << 7) as u64` bytes from `offset`, seek back, and write the
five little-endian `i32` header fields
`1 << 7, 0, 0, (block_number - 1) as i32, 0`;
the `i64` shift is written as multiplication by 128 here. -/
def writeEmptyFileBlockAt (fs : FileState) (offset : Int) (blockNumber : Int) :
    FileState :=
  let fs := wipeFromOffset (u64OfInt (blockNumber * 128)) (u64OfInt offset) fs
  let fs := seekTo (u64OfInt offset) fs
  let fs := writeAll (i32ToLeBytes 128) fs
  let fs := writeAll (i32ToLeBytes 0) fs
  let fs := writeAll (i32ToLeBytes 0) fs
  let fs := writeAll (i32ToLeBytes (i32Wrap (blockNumber - 1))) fs
  writeAll (i32ToLeBytes 0) fs

/-- The file mutation performed by `SqpkDeleteData::apply` on the opened
target stream (the path resolution, open-with-retry and stream cache
around it are I/O): `write_empty_file_block_at(file, self.block_offset,
self.block_number as i64)`. -/
def SqpkDeleteData.applyFile (cmd : SqpkDeleteData) (fs : FileState) : FileState :=
  writeEmptyFileBlockAt fs cmd.blockOffset (cmd.blockNumber : Int)

/-- Read `n` bytes of file contents starting at `p`. -/
def readBackBytes (fs : FileState) (p n : Nat) : List Nat :=
  (List.range n).map (fun i => fs.contents (p + i))

/-! ## Change-set pass (`ZiPatchFile::calculate_changed_files`, `src/file.rs`) -/

/-- The change set; the `HashSet<String>` accumulators are `Finset String`. -/
structure ZiPatchChangeSet where
  added : Finset String
  deleted : Finset String
  modified : Finset String
deriving DecidableEq

/-- The `match chunk` arm bodies of `calculate_changed_files`: how one
decoded chunk updates the three accumulator sets. -/
def changeSetStep (platform : Platform) (chunk : ZiPatchChunk)
    (added deleted modified : Finset String) :
    Finset String × Finset String × Finset String :=
  match chunk with
  | .addDirectory adir => (insert adir.dirName added, deleted, modified)
  | .deleteDirectory deld => (added, insert deld.dirName deleted, modified)
  | .sqpk sqpk =>
    match sqpk with
    | .header h =>
      let filename :=
        match h.targetFile with
        | .dat d => d.getFileName platform
        | .index i => i.getFileName platform
      (added, deleted, insert filename modified)
    | .file f =>
      match f.operation with
      | .addFile =>
        if f.fileOffset = 0 then
          (insert f.targetFile.relativePath added, deleted, modified)
        else
          (added, deleted, insert f.targetFile.relativePath modified)
      | .deleteFile => (added, insert f.targetFile.relativePath deleted, modified)
      | .removeAll =>
        let expansion := getExpansionFolder (f.expansionId % 256)
        (added,
          insert ("movie/" ++ expansion ++ "/")
            (insert ("sqpack/" ++ expansion ++ "/") deleted),
          modified)
      | .makeDirTree => (insert f.targetFile.relativePath added, deleted, modified)
    | .addData a => (added, deleted, insert (a.targetFile.getFileName platform) modified)
    | .deleteData d => (added, deleted, insert (d.targetFile.getFileName platform) modified)
    | .expandData e => (added, deleted, insert (e.targetFile.getFileName platform) modified)
    | _ => (added, deleted, modified)
  | _ => (added, deleted, modified)

/-- The chunk loop of `calculate_changed_files`: read chunks, stop at
`EOF_`, accumulate.  The loop consumes at least 8 stream bytes per
iteration in the Rust code; `fuel` bounds the iteration count so the model
is total, with exhaustion surfacing as `nonTermination`. -/
def changedFilesLoop (platform : Platform) : Nat → CRStream →
    Finset String → Finset String → Finset String →
    Except ZErr (Finset String × Finset String × Finset String)
  | 0, _, _, _, _ => throw .nonTermination
  | fuel + 1, s, added, deleted, modified => do
    let (chunk, s) ← ZiPatchChunk.read s
    if chunk.isEof then pure (added, deleted, modified)
    else
      let (added, deleted, modified) := changeSetStep platform chunk added deleted modified
      changedFilesLoop platform fuel s added deleted modified

/-- `ZiPatchFile::calculate_changed_files` (the stream rewinds around the
loop are position bookkeeping on the same reader): run the loop from the
post-magic position, then remove from `added` everything in `modified`
(`added.retain(|item| !modified.contains(item))`). -/
def calculateChangedFiles (fuel : Nat) (s : CRStream) (platform : Platform) :
    Except ZErr ZiPatchChangeSet := do
  let (added, deleted, modified) ← changedFilesLoop platform fuel s ∅ ∅ ∅
  pure ⟨added.filter (fun item => item ∉ modified), deleted, modified⟩

/-! ## Open-with-retry (`SqexFileStream::wait_for_stream`) -/

/-- Outcome of one `SqexFileStream::new` open attempt. -/
inductive OpenOutcome where
  | ok
  | ioErr (kind : IoErrorKind)
  | otherErr
deriving Repr, DecidableEq

/-- Result of `wait_for_stream` (`okStream i` records which attempt
succeeded; the path in `FileStreamRetryExhausted` is the fixed argument
and is left implicit). -/
inductive WaitResult where
  | okStream (attempt : Nat)
  | errIo (kind : IoErrorKind)
  | errOther
  | retryExhausted (tries : Nat)
deriving Repr, DecidableEq

/-- The retry loop of `SqexFileStream::wait_for_stream`: `attempts i` is
the outcome of the `i`-th open attempt, `remainingTries` mirrors
`remaining_tries`.  The `thread::sleep(sleeptime)` between retries has no
observable effect on the result and is not modelled. -/
def waitLoop (attempts : Nat → OpenOutcome) (tries : Nat) : Nat → Nat → WaitResult
  | i, remainingTries =>
    match attempts i with
    | .ok => .okStream i
    | .ioErr kind =>
      if h : remainingTries > 1 then
        if kind = .permissionDenied ∨ kind = .wouldBlock then
          waitLoop attempts tries (i + 1) (remainingTries - 1)
        else .errIo kind
      else .retryExhausted tries
    | .otherErr =>
      if remainingTries ≤ 1 then .retryExhausted tries else .errOther
termination_by i r => r
decreasing_by simp_wf; omega

/-- `SqexFileStream::wait_for_stream` entry point. -/
def waitForStream (attempts : Nat → OpenOutcome) (tries : Nat) : WaitResult :=
  waitLoop attempts tries 0 tries

/-- An outcome the loop retries on: a `PermissionDenied` or `WouldBlock`
I/O error. -/
def retryableOutcome (o : OpenOutcome) : Prop :=
  o = .ioErr .permissionDenied ∨ o = .ioErr .wouldBlock

instance (o : OpenOutcome) : Decidable (retryableOutcome o) := by
  unfold retryableOutcome; infer_instance

/-! ## Inversion lemmas for the reader primitives -/

theorem bind_ok_inv {α β : Type} {m : Except ZErr α} {f : α → Except ZErr β} {b : β}
    (h : m >>= f = .ok b) : ∃ a, m = .ok a ∧ f a = .ok b := by
  cases m with
  | error e => simp [Bind.bind, Except.bind] at h
  | ok a => exact ⟨a, rfl, by simpa [Bind.bind, Except.bind] using h⟩

theorem bind_error_inv {α β : Type} {m : Except ZErr α} {f : α → Except ZErr β}
    {e : ZErr} (h : m >>= f = .error e) :
    m = .error e ∨ ∃ a, m = .ok a ∧ f a = .error e := by
  cases m with
  | error e' =>
    left
    simpa [Bind.bind, Except.bind] using h
  | ok a =>
    right
    exact ⟨a, rfl, by simpa [Bind.bind, Except.bind] using h⟩

theorem readBytes_ok {n : Nat} {s : CRStream} {bs : List Nat} {s' : CRStream}
    (h : readBytes n s = .ok (bs, s')) :
    s.pos + n ≤ s.data.length ∧ bs = (s.data.drop s.pos).take n ∧
      s' = ⟨s.data, s.pos + n, crcUpdate s.crc bs⟩ := by
  unfold readBytes at h
  split at h
  case isTrue hc =>
    simp only [Except.ok.injEq, Prod.mk.injEq] at h
    refine ⟨hc, h.1.symm, ?_⟩
    rw [← h.2, h.1]
  case isFalse hc => simp at h

theorem readU32BE_ok {s : CRStream} {v : Nat} {s' : CRStream}
    (h : readU32BE s = .ok (v, s')) :
    s.pos + 4 ≤ s.data.length ∧ v = beNat ((s.data.drop s.pos).take 4) ∧
      s' = ⟨s.data, s.pos + 4, crcUpdate s.crc ((s.data.drop s.pos).take 4)⟩ := by
  unfold readU32BE at h
  obtain ⟨⟨bs, s1⟩, hb, hf⟩ := bind_ok_inv h
  obtain ⟨h1, h2, h3⟩ := readBytes_ok hb
  simp only [pure, Except.pure, Except.ok.injEq, Prod.mk.injEq] at hf
  subst h2
  exact ⟨h1, hf.1.symm, by rw [← hf.2, h3]⟩

/-! ## Spec-side formatting and naming for claim C4 -/

/-- Digit values of `n` in base `b`, most significant first; the single
digit `0` for `n = 0`. -/
def specDigitsBase (b n : Nat) : List Nat :=
  if n = 0 then [0] else (Nat.digits b n).reverse

/-- Lowercase hex digit table lookup (spec-side formatting). -/
def specHexDigitChar (d : Nat) : Char := "0123456789abcdef".toList.getD d '?'

/-- Spec-side `{main_id:02x}`-style formatting: lowercase hex digits with
leading zeros up to width `w`. -/
def specHexPad (w n : Nat) : String :=
  String.mk (List.replicate (w - (specDigitsBase 16 n).length) '0' ++
    (specDigitsBase 16 n).map specHexDigitChar)

/-- Spec-side decimal formatting. -/
def specDecStr (n : Nat) : String :=
  String.mk ((specDigitsBase 10 n).map specHexDigitChar)

/-- Spec-side expansion folder: `ffxiv` when the high byte of `sub_id` is
zero, `ex{N}` otherwise (for `sub_id < 2^16` the high byte is
`sub_id / 256`). -/
def specExpansionFolder (subId : Nat) : String :=
  if subId / 256 = 0 then "ffxiv" else "ex" ++ specDecStr (subId / 256)

/-- Spec-side base filename `{main_id:02x}{sub_id:04x}.{platform}`. -/
def specBaseFilename (mainId subId : Nat) (p : Platform) : String :=
  specHexPad 2 mainId ++ specHexPad 4 subId ++ "." ++ p.toStr

/-- Spec-side dat-file name `/sqpack/{exp}/{base}.dat{file_id}`. -/
def specDatName (mainId subId fileId : Nat) (p : Platform) : String :=
  "/sqpack/" ++ specExpansionFolder subId ++ "/" ++
    specBaseFilename mainId subId p ++ ".dat" ++ specDecStr fileId

/-- Spec-side index-file name `/sqpack/{exp}/{base}.index[{file_id}]`. -/
def specIndexName (mainId subId fileId : Nat) (p : Platform) : String :=
  "/sqpack/" ++ specExpansionFolder subId ++ "/" ++
    specBaseFilename mainId subId p ++
    (if fileId = 0 then ".index" else ".index" ++ specDecStr fileId)

theorem hexAux_eq_digits :
    ∀ n fuel acc, n < fuel →
      hexAux fuel n acc = (specDigitsBase 16 n).map digitChar ++ acc := by
  intro n
  induction n using Nat.strong_induction_on with
  | _ n ih =>
    intro fuel acc hf
    obtain ⟨fuel, rfl⟩ : ∃ f, fuel = f + 1 := ⟨fuel - 1, by omega⟩
    show (if n < 16 then digitChar n :: acc
      else hexAux fuel (n / 16) (digitChar (n % 16) :: acc)) = _
    by_cases h16 : n < 16
    · rw [if_pos h16]
      by_cases h0 : n = 0
      · subst h0; simp [specDigitsBase]
      · have hd : Nat.digits 16 n = [n] := by
          rw [Nat.digits_def' (b := 16) (by norm_num) (Nat.pos_of_ne_zero h0)]
          rw [Nat.div_eq_of_lt h16, Nat.mod_eq_of_lt h16]
          simp
        simp [specDigitsBase, h0, hd]
    · rw [if_neg h16]
      have h1 : n / 16 < n := Nat.div_lt_self (by omega) (by norm_num)
      rw [ih (n / 16) h1 fuel _ (by omega)]
      have hd : Nat.digits 16 n = n % 16 :: Nat.digits 16 (n / 16) :=
        Nat.digits_def' (by norm_num) (by omega)
      have hq : n / 16 ≠ 0 := by omega
      simp [specDigitsBase, hd, hq, show n ≠ 0 by omega]

theorem decAux_eq_digits :
    ∀ n fuel acc, n < fuel →
      decAux fuel n acc = (specDigitsBase 10 n).map digitChar ++ acc := by
  intro n
  induction n using Nat.strong_induction_on with
  | _ n ih =>
    intro fuel acc hf
    obtain ⟨fuel, rfl⟩ : ∃ f, fuel = f + 1 := ⟨fuel - 1, by omega⟩
    show (if n < 10 then digitChar n :: acc
      else decAux fuel (n / 10) (digitChar (n % 10) :: acc)) = _
    by_cases h10 : n < 10
    · rw [if_pos h10]
      by_cases h0 : n = 0
      · subst h0; simp [specDigitsBase]
      · have hd : Nat.digits 10 n = [n] := by
          rw [Nat.digits_def' (b := 10) (by norm_num) (Nat.pos_of_ne_zero h0)]
          rw [Nat.div_eq_of_lt h10, Nat.mod_eq_of_lt h10]
          simp
        simp [specDigitsBase, h0, hd]
    · rw [if_neg h10]
      have h1 : n / 10 < n := Nat.div_lt_self (by omega) (by norm_num)
      rw [ih (n / 10) h1 fuel _ (by omega)]
      have hd : Nat.digits 10 n = n % 10 :: Nat.digits 10 (n / 10) :=
        Nat.digits_def' (by norm_num) (by omega)
      have hq : n / 10 ≠ 0 := by omega
      simp [specDigitsBase, hd, hq, show n ≠ 0 by omega]

theorem digitChar_eq_specHexDigitChar : ∀ d, d < 16 → digitChar d = specHexDigitChar d := by
  decide

theorem specDigitsBase_lt (b n : Nat) (hb : 1 < b) :
    ∀ d ∈ specDigitsBase b n, d < b := by
  intro d hd
  unfold specDigitsBase at hd
  split at hd
  · simp at hd; omega
  · rw [List.mem_reverse] at hd
    exact Nat.digits_lt_base hb hd

theorem natHexStr_eq_spec (n : Nat) :
    natHexStr n = String.mk ((specDigitsBase 16 n).map specHexDigitChar) := by
  rw [natHexStr, hexAux_eq_digits n (n + 1) [] (by omega), List.append_nil]
  congr 1
  exact List.map_congr_left fun d hd =>
    digitChar_eq_specHexDigitChar d (specDigitsBase_lt 16 n (by norm_num) d hd)

theorem natDecStr_eq_spec (n : Nat) : natDecStr n = specDecStr n := by
  rw [natDecStr, decAux_eq_digits n (n + 1) [] (by omega), List.append_nil, specDecStr]
  congr 1
  exact List.map_congr_left fun d hd => by
    have := specDigitsBase_lt 10 n (by norm_num) d hd
    exact digitChar_eq_specHexDigitChar d (by omega)

theorem rustHexPad_eq_spec (w n : Nat) : rustHexPad w n = specHexPad w n := by
  rw [rustHexPad, natHexStr_eq_spec, specHexPad]
  have hlen : (String.mk ((specDigitsBase 16 n).map specHexDigitChar)).length =
      (specDigitsBase 16 n).length := by
    simp [String.length]
  rw [hlen]
  by_cases hw : (specDigitsBase 16 n).length < w
  · rw [if_pos hw]
    rfl
  · rw [if_neg hw]
    have : w - (specDigitsBase 16 n).length = 0 := by omega
    rw [this]
    simp

/-- C4: for all `(main_id, sub_id, file_id, platform)` the derived
dat-file name is `/sqpack/{exp}/{main_id:02x}{sub_id:04x}.{platform}.dat{file_id}`
and the derived index-file name is
`/sqpack/{exp}/{main_id:02x}{sub_id:04x}.{platform}.index` when
`file_id = 0` and `/sqpack/{exp}/{main_id:02x}{sub_id:04x}.{platform}.index{file_id}`
otherwise, where `exp` is `ffxiv` when the high byte of `sub_id` is zero
and `ex{N}` for high byte `N ≠ 0`, with lowercase hex digits and leading
zeros. -/
theorem c4_sqpack_naming (mainId subId fileId : Nat) (p : Platform)
    (_hm : mainId < 2 ^ 16) (hs : subId < 2 ^ 16) (_hf : fileId < 2 ^ 32) :
    SqpackDatFile.getFileName ⟨⟨mainId, subId, fileId, ""⟩⟩ p =
        specDatName mainId subId fileId p ∧
      SqpackIndexFile.getFileName ⟨⟨mainId, subId, fileId, ""⟩⟩ p =
        specIndexName mainId subId fileId p := by
  have hexp : SqpackFile.expansionId ⟨mainId, subId, fileId, ""⟩ = subId / 256 := by
    unfold SqpackFile.expansionId
    have : subId / 256 < 256 := by omega
    simp only
    omega
  have hfold : getExpansionFolder (subId / 256) = specExpansionFolder subId := by
    unfold getExpansionFolder specExpansionFolder
    rw [natDecStr_eq_spec]
  have hbase : SqpackFile.getBaseFilename ⟨mainId, subId, fileId, ""⟩ p =
      specBaseFilename mainId subId p := by
    unfold SqpackFile.getBaseFilename specBaseFilename
    rw [rustHexPad_eq_spec, rustHexPad_eq_spec]
  constructor
  · unfold SqpackDatFile.getFileName specDatName getExpansionPath
    rw [hexp, hfold, hbase, natDecStr_eq_spec]
  · unfold SqpackIndexFile.getFileName specIndexName getExpansionPath
    rw [hexp, hfold, hbase, natDecStr_eq_spec]
    by_cases h0 : fileId = 0
    · simp [h0]
    · simp [h0, String.append_assoc]

/-- Witness for C4 at `main_id = 0x0A`, `sub_id = 0x0100`, `file_id = 2`,
platform `win32`. -/
theorem c4_witness :
    SqpackDatFile.getFileName ⟨⟨10, 256, 2, ""⟩⟩ .win32 =
        specDatName 10 256 2 .win32 ∧
      SqpackIndexFile.getFileName ⟨⟨10, 256, 2, ""⟩⟩ .win32 =
        specIndexName 10 256 2 .win32 :=
  c4_sqpack_naming 10 256 2 .win32 (by decide) (by decide) (by decide)

/-! ## Counterexample inputs shown as concrete streams -/

/-- C1 counterexample: an `EOF_` chunk whose trailing CRC word is `0`
while the CRC accumulated over `tag || body` is `crc32("EOF_") =
2881427720`.  The produced error carries the trailing stream word in
`expected` and the accumulated CRC in `actual`, the opposite of what the
claim states. -/
theorem c1_counterexample :
    ZiPatchChunk.read ⟨[0, 0, 0, 0, 69, 79, 70, 95, 0, 0, 0, 0], 0, crcInitState⟩ =
        .error (.checksumMismatch 0 0 2881427720) ∧
      crc32Calculate [69, 79, 70, 95] = 2881427720 ∧
      (2881427720 : Nat) ≠ 0 := by
  decide

/-- C2 counterexample: a perfectly valid `EOF_` chunk with `size = 0` and
a correct trailing CRC decodes successfully, yet the stream advances by
12 bytes (4 size + 4 tag + 0 body + 4 CRC), not by the claim's
`8 + size = 8`: the claim's accounting omits the 4 tag bytes. -/
theorem c2_counterexample :
    (ZiPatchChunk.read ⟨[0, 0, 0, 0, 69, 79, 70, 95, 171, 191, 25, 8], 0,
        crcInitState⟩).map (fun r => (r.1, r.2.pos)) = .ok (.endOfFile, 12) ∧
      beNat [0, 0, 0, 0] = 0 ∧ (12 : Nat) ≠ 0 + 8 + 0 := by
  decide

/-- C5 counterexample: a raw block (`compressed_size = 0x7D00`) with
`header_size = 100` and `decompressed_size = 200`; the padded length is
`(200 + 143) & ~0x7F = 256`, so the claim predicts `16 + (256 - 100) = 172`
consumed bytes, but the decoder consumes `16 + 200 = 216` (the padding
subtraction is negative and skipped). -/
theorem c5_counterexample :
    (SqpkCompressedBlock.readFrom ⟨[100, 0, 0, 0, 0, 0, 0, 0, 0, 125, 0, 0,
        200, 0, 0, 0] ++ List.replicate 200 7, 0, crcInitState⟩).map
        (fun r => (r.1.headerSize, r.1.compressedSize, r.1.decompressedSize, r.2.pos)) =
        .ok (100, 0x7d00, 200, 216) ∧
      calculateCompressedBlockLength 0x7d00 200 = 256 ∧
      (216 : Nat) ≠ 16 + (256 - 100) := by
  decide

/-- C6 counterexample: a file-header body whose little-endian first word
is `0x01020000`, so its upper 16 bits are `258 ∉ {2, 3}`; the decoder
truncates the upper bits to a byte (`(version_field >> 16) as u8 = 2`) and
succeeds instead of failing. -/
theorem c6_counterexample :
    (FileHeaderChunk.read ⟨[0, 0, 2, 1, 72, 73, 83, 84, 0, 0, 0, 0], 0,
        crcInitState⟩ 12).map (fun r => (r.1.version, r.1.commandCounts, r.2.pos)) =
        .ok (2, none, 12) ∧
      leNat [0, 0, 2, 1] = 0x01020000 ∧ (0x01020000 : Nat) / 65536 = 258 ∧
      (258 : Nat) ≠ 2 ∧ (258 : Nat) ≠ 3 := by
  decide

/-- C9 counterexample: with `tries = 1` a `NotFound` open error — not a
retryable kind — is converted into `FileStreamRetryExhausted` instead of
being returned unchanged as the claim states. -/
theorem c9_counterexample :
    waitForStream (fun _ => .ioErr .notFound) 1 = .retryExhausted 1 ∧
      WaitResult.retryExhausted 1 ≠ .errIo .notFound := by
  refine ⟨?_, by decide⟩
  simp [waitForStream, waitLoop]

/-! ## Post-condition combinators over `Except` results -/

/-- Every successful result of `r` satisfies `P`. -/
def ResultOk {α : Type} (P : α → Prop) (r : Except ZErr α) : Prop :=
  ∀ a, r = .ok a → P a

/-- Every error produced by `r` satisfies `P`. -/
def ResultErr {α : Type} (P : ZErr → Prop) (r : Except ZErr α) : Prop :=
  ∀ e, r = .error e → P e

theorem ResultOk.bind_any {α β : Type} {P : β → Prop} {m : Except ZErr α}
    {f : α → Except ZErr β} (h : ∀ a, ResultOk P (f a)) : ResultOk P (m >>= f) := by
  intro b hb
  obtain ⟨a, _, hf⟩ := bind_ok_inv hb
  exact h a b hf

theorem resultOk_of_pure {α : Type} {P : α → Prop} {a : α} (h : P a) :
    ResultOk P (pure a) := by
  intro b hb
  simp only [pure, Except.pure, Except.ok.injEq] at hb
  rwa [← hb]

theorem resultOk_of_error {α : Type} {P : α → Prop} {e : ZErr} :
    ResultOk P (.error e : Except ZErr α) := by
  intro b hb
  simp at hb

theorem ResultErr.bind {α β : Type} {P : ZErr → Prop} {m : Except ZErr α}
    {f : α → Except ZErr β} (hm : ResultErr P m) (hf : ∀ a, ResultErr P (f a)) :
    ResultErr P (m >>= f) := by
  intro e he
  rcases bind_error_inv he with h | ⟨a, _, h⟩
  · exact hm e h
  · exact hf a e h

theorem ResultErr.of_ok {α : Type} {P : ZErr → Prop} {a : α} :
    ResultErr P (.ok a : Except ZErr α) := by
  intro e he
  simp at he

theorem resultErr_of_pure {α : Type} {P : ZErr → Prop} {a : α} :
    ResultErr P (pure a : Except ZErr α) := by
  intro e he
  simp [pure, Except.pure] at he

theorem resultErr_of_error {α : Type} {P : ZErr → Prop} {e : ZErr} (h : P e) :
    ResultErr P (.error e : Except ZErr α) := by
  intro e' he
  simp only [Except.error.injEq] at he
  rwa [← he]

theorem ResultErr.map {α β : Type} {P : ZErr → Prop} {m : Except ZErr α}
    {g : α → β} (hm : ResultErr P m) : ResultErr P (m.map g) := by
  intro e he
  cases m with
  | error e' =>
    simp only [Except.map, Except.error.injEq] at he
    exact he ▸ hm e' rfl
  | ok a => simp [Except.map] at he

theorem readBytes_resultErr {P : ZErr → Prop} (hio : P .ioError) (n : Nat)
    (s : CRStream) : ResultErr P (readBytes n s) := by
  intro e he
  unfold readBytes at he
  split at he
  · simp at he
  · simp only [Except.error.injEq] at he
    rwa [← he]

theorem readByte_resultErr {P : ZErr → Prop} (hio : P .ioError) (s : CRStream) :
    ResultErr P (readByte s) := by
  unfold readByte
  exact .bind (readBytes_resultErr hio 1 s) fun a => by rcases a with ⟨bs, s⟩; exact resultErr_of_pure

theorem readU16BE_resultErr {P : ZErr → Prop} (hio : P .ioError) (s : CRStream) :
    ResultErr P (readU16BE s) := by
  unfold readU16BE
  exact .bind (readBytes_resultErr hio 2 s) fun a => by rcases a with ⟨bs, s⟩; exact resultErr_of_pure

theorem readI16BE_resultErr {P : ZErr → Prop} (hio : P .ioError) (s : CRStream) :
    ResultErr P (readI16BE s) := by
  unfold readI16BE
  exact .bind (readBytes_resultErr hio 2 s) fun a => by rcases a with ⟨bs, s⟩; exact resultErr_of_pure

theorem readU32BE_resultErr {P : ZErr → Prop} (hio : P .ioError) (s : CRStream) :
    ResultErr P (readU32BE s) := by
  unfold readU32BE
  exact .bind (readBytes_resultErr hio 4 s) fun a => by rcases a with ⟨bs, s⟩; exact resultErr_of_pure

theorem readI32BE_resultErr {P : ZErr → Prop} (hio : P .ioError) (s : CRStream) :
    ResultErr P (readI32BE s) := by
  unfold readI32BE
  exact .bind (readBytes_resultErr hio 4 s) fun a => by rcases a with ⟨bs, s⟩; exact resultErr_of_pure

theorem readU32LE_resultErr {P : ZErr → Prop} (hio : P .ioError) (s : CRStream) :
    ResultErr P (readU32LE s) := by
  unfold readU32LE
  exact .bind (readBytes_resultErr hio 4 s) fun a => by rcases a with ⟨bs, s⟩; exact resultErr_of_pure

theorem readI32LE_resultErr {P : ZErr → Prop} (hio : P .ioError) (s : CRStream) :
    ResultErr P (readI32LE s) := by
  unfold readI32LE
  exact .bind (readBytes_resultErr hio 4 s) fun a => by rcases a with ⟨bs, s⟩; exact resultErr_of_pure

theorem readU64BE_resultErr {P : ZErr → Prop} (hio : P .ioError) (s : CRStream) :
    ResultErr P (readU64BE s) := by
  unfold readU64BE
  exact .bind (readBytes_resultErr hio 8 s) fun a => by rcases a with ⟨bs, s⟩; exact resultErr_of_pure

theorem readI64BE_resultErr {P : ZErr → Prop} (hio : P .ioError) (s : CRStream) :
    ResultErr P (readI64BE s) := by
  unfold readI64BE
  exact .bind (readBytes_resultErr hio 8 s) fun a => by rcases a with ⟨bs, s⟩; exact resultErr_of_pure

theorem readU64LE_resultErr {P : ZErr → Prop} (hio : P .ioError) (s : CRStream) :
    ResultErr P (readU64LE s) := by
  unfold readU64LE
  exact .bind (readBytes_resultErr hio 8 s) fun a => by rcases a with ⟨bs, s⟩; exact resultErr_of_pure

theorem readFixedString_resultErr {P : ZErr → Prop} (hio : P .ioError) (n : Nat)
    (s : CRStream) : ResultErr P (readFixedString n s) := by
  unfold readFixedString
  exact .bind (readBytes_resultErr hio n s) fun a => by rcases a with ⟨bs, s⟩; exact resultErr_of_pure

theorem sqpackFile_readFrom_resultErr {P : ZErr → Prop} (hio : P .ioError)
    (s : CRStream) : ResultErr P (SqpackFile.readFrom s) := by
  unfold SqpackFile.readFrom
  apply ResultErr.bind (readU16BE_resultErr hio s)
  rintro ⟨a1, s1⟩
  apply ResultErr.bind (readU16BE_resultErr hio s1)
  rintro ⟨a2, s2⟩
  apply ResultErr.bind (readU32BE_resultErr hio s2)
  rintro ⟨a3, s3⟩
  exact resultErr_of_pure

theorem sqpackDatFile_readFrom_resultErr {P : ZErr → Prop} (hio : P .ioError)
    (s : CRStream) : ResultErr P (SqpackDatFile.readFrom s) := by
  unfold SqpackDatFile.readFrom
  apply ResultErr.bind (sqpackFile_readFrom_resultErr hio s)
  rintro ⟨a1, s1⟩
  exact resultErr_of_pure

theorem sqpackIndexFile_readFrom_resultErr {P : ZErr → Prop} (hio : P .ioError)
    (s : CRStream) : ResultErr P (SqpackIndexFile.readFrom s) := by
  unfold SqpackIndexFile.readFrom
  apply ResultErr.bind (sqpackFile_readFrom_resultErr hio s)
  rintro ⟨a1, s1⟩
  exact resultErr_of_pure

theorem compressedBlock_readFrom_resultErr {P : ZErr → Prop} (hio : P .ioError)
    (s : CRStream) : ResultErr P (SqpkCompressedBlock.readFrom s) := by
  unfold SqpkCompressedBlock.readFrom
  apply ResultErr.bind (readI32LE_resultErr hio s)
  rintro ⟨a1, s1⟩
  apply ResultErr.bind (readU32LE_resultErr hio s1)
  rintro ⟨a2, s2⟩
  apply ResultErr.bind (readI32LE_resultErr hio s2)
  rintro ⟨a3, s3⟩
  apply ResultErr.bind (readI32LE_resultErr hio s3)
  rintro ⟨a4, s4⟩
  dsimp only
  split
  · apply ResultErr.bind (readBytes_resultErr hio _ _)
    rintro ⟨a5, s5⟩
    exact resultErr_of_pure
  · apply ResultErr.bind (readBytes_resultErr hio _ _)
    rintro ⟨a5, s5⟩
    split
    · apply ResultErr.bind (readBytes_resultErr hio _ _)
      rintro ⟨a6, s6⟩
      exact resultErr_of_pure
    · exact resultErr_of_pure

theorem readBlocksGo_resultErr {P : ZErr → Prop} (hio : P .ioError)
    (hnt : P .nonTermination) :
    ∀ (fuel : Nat) (s : CRStream) (br : Nat), ResultErr P (readBlocksGo fuel s br) := by
  intro fuel
  induction fuel with
  | zero =>
    intro s br
    unfold readBlocksGo
    split
    · exact .of_ok
    · exact resultErr_of_error hnt
  | succ fuel ih =>
    intro s br
    unfold readBlocksGo
    split
    · exact .of_ok
    · apply ResultErr.bind (compressedBlock_readFrom_resultErr hio s)
      rintro ⟨block, s'⟩
      dsimp only
      split
      · exact resultErr_of_error hnt
      · apply ResultErr.bind (ih _ _)
        rintro ⟨rest, s''⟩
        exact resultErr_of_pure

theorem readBlocksLoop_resultErr {P : ZErr → Prop} (hio : P .ioError)
    (hnt : P .nonTermination) (s : CRStream) (br : Nat) :
    ResultErr P (readBlocksLoop s br) := by
  unfold readBlocksLoop
  exact readBlocksGo_resultErr hio hnt _ _ _

theorem sqpkFile_readRest_resultErr {P : ZErr → Prop} (hio : P .ioError)
    (hnt : P .nonTermination) (op : OperationKind) (s : CRStream) (r : Nat) :
    ResultErr P (SqpkFile.readRest op s r) := by
  unfold SqpkFile.readRest
  apply ResultErr.bind (readBytes_resultErr hio 2 s)
  rintro ⟨a1, s1⟩
  apply ResultErr.bind (readI64BE_resultErr hio s1)
  rintro ⟨a2, s2⟩
  apply ResultErr.bind (readI64BE_resultErr hio s2)
  rintro ⟨a3, s3⟩
  apply ResultErr.bind (readU32BE_resultErr hio s3)
  rintro ⟨a4, s4⟩
  apply ResultErr.bind (readU16BE_resultErr hio s4)
  rintro ⟨a5, s5⟩
  apply ResultErr.bind (readBytes_resultErr hio 2 s5)
  rintro ⟨a6, s6⟩
  apply ResultErr.bind (readFixedString_resultErr hio _ s6)
  rintro ⟨a7, s7⟩
  dsimp only
  split
  · apply ResultErr.bind (readBlocksLoop_resultErr hio hnt _ _)
    rintro ⟨blocks, s8⟩
    exact resultErr_of_pure
  · exact resultErr_of_pure

theorem sqpkFile_read_resultErr {P : ZErr → Prop} (hio : P .ioError)
    (hnt : P .nonTermination) (s : CRStream) (r : Nat) :
    ResultErr P (SqpkFile.read s r) := by
  unfold SqpkFile.read
  apply ResultErr.bind (readByte_resultErr hio s)
  rintro ⟨b, s1⟩
  exact sqpkFile_readRest_resultErr hio hnt _ _ _

theorem sqpkAddData_read_resultErr {P : ZErr → Prop} (hio : P .ioError)
    (s : CRStream) : ResultErr P (SqpkAddData.read s) := by
  unfold SqpkAddData.read
  apply ResultErr.bind (readBytes_resultErr hio 3 s)
  rintro ⟨a1, s1⟩
  apply ResultErr.bind (sqpackDatFile_readFrom_resultErr hio s1)
  rintro ⟨a2, s2⟩
  apply ResultErr.bind (readU32BE_resultErr hio s2)
  rintro ⟨a3, s3⟩
  apply ResultErr.bind (readU32BE_resultErr hio s3)
  rintro ⟨a4, s4⟩
  apply ResultErr.bind (readU32BE_resultErr hio s4)
  rintro ⟨a5, s5⟩
  apply ResultErr.bind (readBytes_resultErr hio _ s5)
  rintro ⟨a6, s6⟩
  exact resultErr_of_pure

theorem sqpkDeleteData_read_resultErr {P : ZErr → Prop} (hio : P .ioError)
    (s : CRStream) : ResultErr P (SqpkDeleteData.read s) := by
  unfold SqpkDeleteData.read
  apply ResultErr.bind (readBytes_resultErr hio 3 s)
  rintro ⟨a1, s1⟩
  apply ResultErr.bind (sqpackDatFile_readFrom_resultErr hio s1)
  rintro ⟨a2, s2⟩
  apply ResultErr.bind (readU32BE_resultErr hio s2)
  rintro ⟨a3, s3⟩
  apply ResultErr.bind (readU32BE_resultErr hio s3)
  rintro ⟨a4, s4⟩
  apply ResultErr.bind (readU32BE_resultErr hio s4)
  rintro ⟨a5, s5⟩
  exact resultErr_of_pure

theorem sqpkExpandData_read_resultErr {P : ZErr → Prop} (hio : P .ioError)
    (s : CRStream) : ResultErr P (SqpkExpandData.read s) := by
  unfold SqpkExpandData.read
  apply ResultErr.bind (readBytes_resultErr hio 3 s)
  rintro ⟨a1, s1⟩
  apply ResultErr.bind (sqpackDatFile_readFrom_resultErr hio s1)
  rintro ⟨a2, s2⟩
  apply ResultErr.bind (readU32BE_resultErr hio s2)
  rintro ⟨a3, s3⟩
  apply ResultErr.bind (readU32BE_resultErr hio s3)
  rintro ⟨a4, s4⟩
  apply ResultErr.bind (readU32BE_resultErr hio s4)
  rintro ⟨a5, s5⟩
  apply ResultErr.bind (readBytes_resultErr hio _ s5)
  rintro ⟨a6, s6⟩
  exact resultErr_of_pure

theorem sqpkHeader_read_resultErr {P : ZErr → Prop} (hio : P .ioError)
    (s : CRStream) : ResultErr P (SqpkHeader.read s) := by
  unfold SqpkHeader.read
  apply ResultErr.bind (readByte_resultErr hio s)
  rintro ⟨a1, s1⟩
  apply ResultErr.bind (readByte_resultErr hio s1)
  rintro ⟨a2, s2⟩
  apply ResultErr.bind (readByte_resultErr hio s2)
  rintro ⟨a3, s3⟩
  dsimp only
  split
  · apply ResultErr.bind ((sqpackDatFile_readFrom_resultErr hio s3).map)
    intro y
    apply ResultErr.bind (readBytes_resultErr hio 1024 _)
    rintro ⟨hd, s5⟩
    exact resultErr_of_pure
  · apply ResultErr.bind ((sqpackIndexFile_readFrom_resultErr hio s3).map)
    intro y
    apply ResultErr.bind (readBytes_resultErr hio 1024 _)
    rintro ⟨hd, s5⟩
    exact resultErr_of_pure

theorem sqpkIndex_read_resultErr {P : ZErr → Prop} (hio : P .ioError)
    (s : CRStream) : ResultErr P (SqpkIndex.read s) := by
  unfold SqpkIndex.read
  apply ResultErr.bind (readByte_resultErr hio s)
  rintro ⟨a1, s1⟩
  apply ResultErr.bind (readByte_resultErr hio s1)
  rintro ⟨a2, s2⟩
  apply ResultErr.bind (readByte_resultErr hio s2)
  rintro ⟨a3, s3⟩
  apply ResultErr.bind (sqpackIndexFile_readFrom_resultErr hio s3)
  rintro ⟨a4, s4⟩
  apply ResultErr.bind (readU64BE_resultErr hio s4)
  rintro ⟨a5, s5⟩
  apply ResultErr.bind (readU32BE_resultErr hio s5)
  rintro ⟨a6, s6⟩
  apply ResultErr.bind (readU32BE_resultErr hio s6)
  rintro ⟨a7, s7⟩
  exact resultErr_of_pure

theorem sqpkPatchInfo_read_resultErr {P : ZErr → Prop} (hio : P .ioError)
    (s : CRStream) : ResultErr P (SqpkPatchInfo.read s) := by
  unfold SqpkPatchInfo.read
  apply ResultErr.bind (readByte_resultErr hio s)
  rintro ⟨a1, s1⟩
  apply ResultErr.bind (readByte_resultErr hio s1)
  rintro ⟨a2, s2⟩
  apply ResultErr.bind (readByte_resultErr hio s2)
  rintro ⟨a3, s3⟩
  apply ResultErr.bind (readU64BE_resultErr hio s3)
  rintro ⟨a4, s4⟩
  exact resultErr_of_pure

theorem platform_fromU16_resultErr {P : ZErr → Prop}
    (hpl : ∀ v, P (.invalidPlatform v)) (v : Nat) :
    ResultErr P (Platform.fromU16 v) := by
  unfold Platform.fromU16
  split
  · exact .of_ok
  · exact .of_ok
  · exact .of_ok
  · exact .of_ok
  · exact resultErr_of_error (hpl _)

theorem sqpkTargetInfo_read_resultErr {P : ZErr → Prop} (hio : P .ioError)
    (hpl : ∀ v, P (.invalidPlatform v)) (s : CRStream) :
    ResultErr P (SqpkTargetInfo.read s) := by
  unfold SqpkTargetInfo.read
  apply ResultErr.bind (readBytes_resultErr hio 3 s)
  rintro ⟨a1, s1⟩
  apply ResultErr.bind (readU16BE_resultErr hio s1)
  rintro ⟨a2, s2⟩
  apply ResultErr.bind (platform_fromU16_resultErr hpl a2)
  intro p
  apply ResultErr.bind (readI16BE_resultErr hio s2)
  rintro ⟨a3, s3⟩
  apply ResultErr.bind (readI16BE_resultErr hio s3)
  rintro ⟨a4, s4⟩
  apply ResultErr.bind (readU16BE_resultErr hio s4)
  rintro ⟨a5, s5⟩
  apply ResultErr.bind (readU64LE_resultErr hio s5)
  rintro ⟨a6, s6⟩
  apply ResultErr.bind (readU64LE_resultErr hio s6)
  rintro ⟨a7, s7⟩
  exact resultErr_of_pure

theorem sqpkCommand_readSub_resultErr {P : ZErr → Prop} (hio : P .ioError)
    (hnt : P .nonTermination) (hpl : ∀ v, P (.invalidPlatform v))
    (hunk : ∀ c off, P (.unknownSqpkCommand c off)) (cmdByte : Nat)
    (s : CRStream) (remainingSize offset : Nat) :
    ResultErr P (SqpkCommand.readSub cmdByte s remainingSize offset) := by
  unfold SqpkCommand.readSub
  split
  · exact (sqpkAddData_read_resultErr hio s).map
  · exact (sqpkDeleteData_read_resultErr hio s).map
  · exact (sqpkExpandData_read_resultErr hio s).map
  · exact (sqpkFile_read_resultErr hio hnt s _).map
  · exact (sqpkHeader_read_resultErr hio s).map
  · exact (sqpkIndex_read_resultErr hio s).map
  · exact (sqpkPatchInfo_read_resultErr hio s).map
  · exact (sqpkTargetInfo_read_resultErr hio hpl s).map
  · exact resultErr_of_error (hunk _ _)

/-- Every successful `SqpkFile::readRest` result carries the operation it
was dispatched with. -/
theorem readRest_resultOk (op : OperationKind) (s : CRStream) (r : Nat) :
    ResultOk (fun a => a.1.operation = op) (SqpkFile.readRest op s r) := by
  unfold SqpkFile.readRest
  apply ResultOk.bind_any
  rintro ⟨a1, s1⟩
  apply ResultOk.bind_any
  rintro ⟨a2, s2⟩
  apply ResultOk.bind_any
  rintro ⟨a3, s3⟩
  apply ResultOk.bind_any
  rintro ⟨a4, s4⟩
  apply ResultOk.bind_any
  rintro ⟨a5, s5⟩
  apply ResultOk.bind_any
  rintro ⟨a6, s6⟩
  apply ResultOk.bind_any
  rintro ⟨a7, s7⟩
  dsimp only
  split
  · apply ResultOk.bind_any
    rintro ⟨blocks, s8⟩
    exact resultOk_of_pure rfl
  · exact resultOk_of_pure rfl

/-- An error that is not an `SqpkSizeMismatch`. -/
def NotSizeMismatch (e : ZErr) : Prop := ∀ o i, e ≠ .sqpkSizeMismatch o i

theorem notSizeMismatch_ioError : NotSizeMismatch .ioError := by
  intro o i; simp

theorem notSizeMismatch_nonTermination : NotSizeMismatch .nonTermination := by
  intro o i; simp

theorem notSizeMismatch_invalidPlatform : ∀ v, NotSizeMismatch (.invalidPlatform v) := by
  intro v o i; simp

theorem notSizeMismatch_unknownSqpkCommand :
    ∀ c off, NotSizeMismatch (.unknownSqpkCommand c off) := by
  intro c off o i; simp

/-- C3: `SqpkCommand::read` fails with `SqpkSizeMismatch { outer, inner }`
exactly when the inner big-endian `i32` read at the start of the body
differs from the outer chunk size (compared as the same 32-bit value, as
the source's `inner_size != outer_size as i32` does), and it proceeds to
the command byte and sub-command decode — which can never produce an
`SqpkSizeMismatch` — only when the two are equal. -/
theorem c3_sqpk_inner_size (s : CRStream) (outerSize offset : Nat) (inner : Int)
    (s1 : CRStream) (h : readI32BE s = .ok (inner, s1)) :
    (inner ≠ toSigned 32 (outerSize % 2 ^ 32) →
       SqpkCommand.read s outerSize offset =
         .error (.sqpkSizeMismatch outerSize inner)) ∧
    (inner = toSigned 32 (outerSize % 2 ^ 32) →
       SqpkCommand.read s outerSize offset =
         (do
           let (cmdByte, s2) ← readByte s1
           SqpkCommand.readSub cmdByte s2 (outerSize - 5) offset) ∧
       ∀ o i, SqpkCommand.read s outerSize offset ≠
         .error (.sqpkSizeMismatch o i)) := by
  have hunf : SqpkCommand.read s outerSize offset =
      (if inner ≠ toSigned 32 (outerSize % 2 ^ 32) then
        .error (.sqpkSizeMismatch outerSize inner)
      else do
        let (cmdByte, s2) ← readByte s1
        SqpkCommand.readSub cmdByte s2 (outerSize - 5) offset) := by
    unfold SqpkCommand.read
    rw [h]
    simp only [Bind.bind, Except.bind]
    split
    · rfl
    · rfl
  constructor
  · intro hne
    rw [hunf, if_pos hne]
  · intro heq
    have hne : ¬(inner ≠ toSigned 32 (outerSize % 2 ^ 32)) := by simp [heq]
    rw [hunf, if_neg hne]
    refine ⟨rfl, ?_⟩
    intro o i hcontra
    have hre : ResultErr NotSizeMismatch
        (do
          let (cmdByte, s2) ← readByte s1
          SqpkCommand.readSub cmdByte s2 (outerSize - 5) offset) := by
      apply ResultErr.bind (readByte_resultErr notSizeMismatch_ioError s1)
      rintro ⟨c, s2⟩
      exact sqpkCommand_readSub_resultErr notSizeMismatch_ioError
        notSizeMismatch_nonTermination notSizeMismatch_invalidPlatform
        notSizeMismatch_unknownSqpkCommand c s2 _ offset
    exact hre _ hcontra o i rfl

/-- Witness for C3: outer size 6 against an inner word of 7 produces the
mismatch error with exactly those fields. -/
theorem c3_witness :
    SqpkCommand.read ⟨[0, 0, 0, 7, 88], 0, crcInitState⟩ 6 0 =
      .error (.sqpkSizeMismatch 6 7) :=
  (c3_sqpk_inner_size ⟨[0, 0, 0, 7, 88], 0, crcInitState⟩ 6 0 7
    ⟨[0, 0, 0, 7, 88], 4, crcUpdate crcInitState [0, 0, 0, 7]⟩ rfl).1 (by decide)

/-- C8: the change set returned by `calculate_changed_files` never
contains a path in both `added` and `modified`: the final retain pass
removes from `added` everything in `modified`. -/
theorem c8_changeset_disjoint (fuel : Nat) (s : CRStream) (platform : Platform)
    (cs : ZiPatchChangeSet) (h : calculateChangedFiles fuel s platform = .ok cs) :
    cs.added ∩ cs.modified = ∅ := by
  unfold calculateChangedFiles at h
  obtain ⟨⟨a, d, m⟩, hl, hp⟩ := bind_ok_inv h
  simp only [pure, Except.pure, Except.ok.injEq] at hp
  rw [← hp]
  ext x
  simp only [Finset.mem_inter, Finset.mem_filter, Finset.not_mem_empty, iff_false,
    not_and]
  intro hx
  exact fun hm => absurd hm hx.2

/-- Witness for C8 on a one-chunk (`EOF_`) patch stream. -/
theorem c8_witness :
    (⟨∅, ∅, ∅⟩ : ZiPatchChangeSet).added ∩ (⟨∅, ∅, ∅⟩ : ZiPatchChangeSet).modified = ∅ :=
  c8_changeset_disjoint 1 ⟨[0, 0, 0, 0, 69, 79, 70, 95, 171, 191, 25, 8], 0,
    crcInitState⟩ .win32 ⟨∅, ∅, ∅⟩ (by decide)

/-- C10: an SQPK `F` body whose operation byte is none of `A R D M` is
not an error: `from_u8` yields `None`, `unwrap_or` falls back to
`AddFile`, and the rest of the decode — including the compressed-block
loop — proceeds exactly as for an `AddFile` command; by contrast an
unknown SQPK command character is the fatal `UnknownSqpkCommand` error. -/
theorem c10_unknown_fileop_byte (s s1 : CRStream) (b : Nat) (remainingSize : Nat)
    (hb : readByte s = .ok (b, s1)) (hop : OperationKind.fromU8 b = none) :
    (SqpkFile.read s remainingSize = SqpkFile.readRest .addFile s1 remainingSize ∧
      ∀ f s', SqpkFile.read s remainingSize = .ok (f, s') →
        f.operation = .addFile) ∧
    (∀ (t t2 t3 : CRStream) (outer offset : Nat) (inner : Int) (c : Nat),
      readI32BE t = .ok (inner, t2) → inner = toSigned 32 (outer % 2 ^ 32) →
      readByte t2 = .ok (c, t3) →
      c ≠ 65 → c ≠ 68 → c ≠ 69 → c ≠ 70 → c ≠ 72 → c ≠ 73 → c ≠ 88 → c ≠ 84 →
      SqpkCommand.read t outer offset = .error (.unknownSqpkCommand c offset)) := by
  have hmain : SqpkFile.read s remainingSize =
      SqpkFile.readRest .addFile s1 remainingSize := by
    unfold SqpkFile.read
    rw [hb]
    simp only [Bind.bind, Except.bind]
    rw [hop]
    rfl
  refine ⟨⟨hmain, ?_⟩, ?_⟩
  · intro f s' hf
    rw [hmain] at hf
    exact readRest_resultOk .addFile s1 remainingSize (f, s') hf
  · intro t t2 t3 outer offset inner c hi heq hc h65 h68 h69 h70 h72 h73 h88 h84
    subst heq
    unfold SqpkCommand.read
    rw [hi]
    simp only [Bind.bind, Except.bind]
    rw [if_neg (by simp)]
    simp only [pure, Except.pure, Bind.bind, Except.bind]
    rw [hc]
    simp only [Bind.bind, Except.bind]
    unfold SqpkCommand.readSub
    split <;> simp_all

/-! ## Helper inversion lemmas with positions (C1, C2, C6) -/

/-- The big-endian 32-bit word stored at offset `p` of a byte list. -/
def be32At (data : List Nat) (p : Nat) : Nat := beNat ((data.drop p).take 4)

theorem readU32BE_ok' {s : CRStream} {v : Nat} {s' : CRStream}
    (h : readU32BE s = .ok (v, s')) :
    v = be32At s.data s.pos ∧ s'.data = s.data ∧ s'.pos = s.pos + 4 := by
  obtain ⟨_, hv, hs⟩ := readU32BE_ok h
  exact ⟨hv, by rw [hs], by rw [hs]⟩

theorem readU32LE_ok {s : CRStream} {v : Nat} {s' : CRStream}
    (h : readU32LE s = .ok (v, s')) :
    v = leNat ((s.data.drop s.pos).take 4) ∧ s'.data = s.data ∧ s'.pos = s.pos + 4 := by
  unfold readU32LE at h
  obtain ⟨⟨bs, s1⟩, hb, hf⟩ := bind_ok_inv h
  obtain ⟨_, h2, h3⟩ := readBytes_ok hb
  simp only [pure, Except.pure, Except.ok.injEq, Prod.mk.injEq] at hf
  subst h2
  refine ⟨hf.1.symm, ?_, ?_⟩ <;> rw [← hf.2, h3]

theorem readFixedString_ok {n : Nat} {s : CRStream} {str : String} {s' : CRStream}
    (h : readFixedString n s = .ok (str, s')) :
    s'.data = s.data ∧ s'.pos = s.pos + n := by
  unfold readFixedString at h
  obtain ⟨⟨bs, s1⟩, hb, hf⟩ := bind_ok_inv h
  obtain ⟨_, _, h3⟩ := readBytes_ok hb
  simp only [pure, Except.pure, Except.ok.injEq, Prod.mk.injEq] at hf
  constructor <;> rw [← hf.2, h3]

/-! ## The advance guard's drain (claims C1, C2) -/

theorem drainGo_result (offsetAfter bufLen : Nat) :
    ∀ (fuel left : Nat) (s : CRStream), left ≤ fuel → 0 < bufLen →
      s.pos + left ≤ s.data.length →
      drainGo offsetAfter bufLen fuel s left =
        ⟨s.data, s.pos + left, crcUpdate s.crc ((s.data.drop s.pos).take left)⟩ := by
  intro fuel
  induction fuel with
  | zero =>
    intro left s hl _ _
    have h0 : left = 0 := by omega
    subst h0
    show s = _
    cases s with
    | mk d p c => simp [crcUpdate]
  | succ fuel ih =>
    intro left s hl hb hlen
    unfold drainGo
    by_cases h0 : left = 0
    · subst h0
      rw [if_pos rfl]
      cases s with
      | mk d p c => simp [crcUpdate]
    · rw [if_neg h0]
      dsimp only
      rw [if_pos (by omega)]
      rw [ih (left - min left bufLen) _ (by omega) hb (by dsimp only; omega)]
      have htr : min left bufLen ≤ left := Nat.min_le_left _ _
      simp only [CRStream.mk.injEq, true_and]
      refine ⟨by omega, ?_⟩
      rw [crcUpdate, crcUpdate, ← List.foldl_append, ← crcUpdate]
      congr 1
      have hsplit : left = min left bufLen + (left - min left bufLen) := by omega
      conv_rhs => rw [hsplit]
      rw [List.take_add]
      congr 1
      rw [List.drop_drop]

theorem drainGo_pos (offsetAfter bufLen : Nat) :
    ∀ (fuel left : Nat) (s : CRStream), left ≤ fuel → s.pos + left = offsetAfter →
      0 < bufLen → (drainGo offsetAfter bufLen fuel s left).pos = offsetAfter := by
  intro fuel
  induction fuel with
  | zero =>
    intro left s hl hinv _
    have h0 : left = 0 := by omega
    subst h0
    show s.pos = offsetAfter
    omega
  | succ fuel ih =>
    intro left s hl hinv hb
    unfold drainGo
    by_cases h0 : left = 0
    · subst h0
      rw [if_pos rfl]
      omega
    · rw [if_neg h0]
      dsimp only
      split
      · exact ih (left - min left bufLen) _ (by omega) (by dsimp only; omega) hb
      · rfl

theorem guardDrop_pos (offsetAfter : Nat) (s : CRStream) (h : s.pos ≤ offsetAfter) :
    (guardDrop offsetAfter s).pos = offsetAfter := by
  unfold guardDrop
  by_cases hlt : s.pos < offsetAfter
  · rw [if_pos hlt]
    exact drainGo_pos offsetAfter _ _ _ s (le_refl _) (by omega) (by omega)
  · rw [if_neg hlt]
    omega

theorem guardDrop_result (offsetAfter : Nat) (s : CRStream)
    (hle : s.pos ≤ offsetAfter) (hlen : offsetAfter ≤ s.data.length) :
    guardDrop offsetAfter s =
      ⟨s.data, offsetAfter,
        crcUpdate s.crc ((s.data.drop s.pos).take (offsetAfter - s.pos))⟩ := by
  unfold guardDrop
  by_cases hlt : s.pos < offsetAfter
  · rw [if_pos hlt]
    rw [drainGo_result offsetAfter _ _ _ s (le_refl _) (by omega) (by omega)]
    simp only [CRStream.mk.injEq, true_and, and_true]
    omega
  · rw [if_neg hlt]
    have hp : s.pos = offsetAfter := by omega
    cases s with
    | mk d p c =>
      simp only at hp
      subst hp
      simp [crcUpdate]

/-! ## Chunk framing: checksum fields and position discipline (C1, C2) -/

/-- C1 (amended): when a chunk's trailing CRC word disagrees with the CRC
the decoder accumulated over the 4-byte tag and the guarded body,
`ZiPatchChunk::read` returns `ChecksumMismatch` whose `offset` is the
stream position at the start of the chunk's size field, whose `expected`
field is the trailing CRC word read from the stream, and whose `actual`
field is the CRC the decoder computed (the two fields are the reverse of
the claim's reading); when the two agree the chunk is returned. -/
theorem c1_checksum_fields (s0 : CRStream) (size : Nat) (s1 : CRStream)
    (tag : String) (s2 : CRStream) (c : ZiPatchChunk) (s3 : CRStream)
    (w : Nat) (s5 : CRStream)
    (h1 : readU32BE s0 = .ok (size, s1))
    (h2 : readFixedString 4 (initCrc32 s1) = .ok (tag, s2))
    (h3 : decodeBody tag size s0.pos s2 = .ok (c, s3))
    (h4 : readU32BE (guardDrop (s2.pos + size) s3) = .ok (w, s5)) :
    (w ≠ getCrc32 (guardDrop (s2.pos + size) s3) →
      ZiPatchChunk.read s0 = .error (.checksumMismatch s0.pos w
        (getCrc32 (guardDrop (s2.pos + size) s3)))) ∧
    (w = getCrc32 (guardDrop (s2.pos + size) s3) →
      ZiPatchChunk.read s0 = .ok (c, s5)) := by
  have hunf : ZiPatchChunk.read s0 =
      (if getCrc32 (guardDrop (s2.pos + size) s3) ≠ w then
        .error (.checksumMismatch s0.pos w (getCrc32 (guardDrop (s2.pos + size) s3)))
      else .ok (c, s5)) := by
    unfold ZiPatchChunk.read
    rw [h1]
    simp only [Bind.bind, Except.bind]
    rw [h2]
    simp only [Bind.bind, Except.bind]
    rw [h3]
    simp only [Bind.bind, Except.bind]
    rw [h4]
    simp only [Bind.bind, Except.bind]
    split
    · rfl
    · rfl
  constructor
  · intro hne
    rw [hunf, if_pos (Ne.symm hne)]
  · intro heq
    rw [hunf, if_neg (by simp [heq])]

/-- Witness for C1: the `EOF_` chunk with a zeroed trailing word. -/
theorem c1_witness :
    ZiPatchChunk.read ⟨[0, 0, 0, 0, 69, 79, 70, 95, 0, 0, 0, 0], 0, crcInitState⟩ =
      .error (.checksumMismatch 0 0
        (getCrc32 (guardDrop 8 ⟨[0, 0, 0, 0, 69, 79, 70, 95, 0, 0, 0, 0], 8,
          crcUpdate crcInitState [69, 79, 70, 95]⟩))) :=
  (c1_checksum_fields
    ⟨[0, 0, 0, 0, 69, 79, 70, 95, 0, 0, 0, 0], 0, crcInitState⟩ 0
    ⟨[0, 0, 0, 0, 69, 79, 70, 95, 0, 0, 0, 0], 4,
      crcUpdate crcInitState [0, 0, 0, 0]⟩ "EOF_"
    ⟨[0, 0, 0, 0, 69, 79, 70, 95, 0, 0, 0, 0], 8,
      crcUpdate crcInitState [69, 79, 70, 95]⟩ .endOfFile
    ⟨[0, 0, 0, 0, 69, 79, 70, 95, 0, 0, 0, 0], 8,
      crcUpdate crcInitState [69, 79, 70, 95]⟩ 0
    ⟨[0, 0, 0, 0, 69, 79, 70, 95, 0, 0, 0, 0], 12,
      crcUpdate (crcUpdate crcInitState [69, 79, 70, 95]) [0, 0, 0, 0]⟩
    rfl rfl rfl rfl).1 (by decide)

/-- C2 (amended): for every chunk that decodes successfully and whose body
decoder consumed at most the declared `size` bytes, the stream position
after `ZiPatchChunk::read` is the position before plus 12 plus `size`
(4 size bytes, 4 tag bytes, `size` body bytes, 4 trailing-CRC bytes; the
claim's `8 + size` omits the tag).  The guard lands exactly on the scope
end, and when the remainder of the scope is present in the stream it is
consumed by reading through the checksum reader — folding those bytes into
the CRC — rather than by seeking (the seek is only the fallback after a
drain read fails, in which case nothing remains for the trailing-word read
and the chunk fails). -/
theorem c2_position_after_chunk (s0 : CRStream) (size : Nat) (s1 : CRStream)
    (tag : String) (s2 : CRStream) (c : ZiPatchChunk) (s3 : CRStream)
    (h1 : readU32BE s0 = .ok (size, s1))
    (h2 : readFixedString 4 (initCrc32 s1) = .ok (tag, s2))
    (h3 : decodeBody tag size s0.pos s2 = .ok (c, s3))
    (hbody : s3.pos ≤ s2.pos + size) :
    (∀ c' s', ZiPatchChunk.read s0 = .ok (c', s') → s'.pos = s0.pos + 12 + size) ∧
    (guardDrop (s2.pos + size) s3).pos = s2.pos + size ∧
    (s2.pos + size ≤ s3.data.length →
      guardDrop (s2.pos + size) s3 =
        ⟨s3.data, s2.pos + size,
          crcUpdate s3.crc ((s3.data.drop s3.pos).take (s2.pos + size - s3.pos))⟩) := by
  have hgpos : (guardDrop (s2.pos + size) s3).pos = s2.pos + size :=
    guardDrop_pos _ _ hbody
  refine ⟨?_, hgpos, fun hlen => guardDrop_result _ _ hbody hlen⟩
  intro c' s' hok
  have hp1 : s1.pos = s0.pos + 4 := (readU32BE_ok' h1).2.2
  have hp2 : s2.pos = s1.pos + 4 := by
    have := (readFixedString_ok h2).2
    simpa [initCrc32] using this
  unfold ZiPatchChunk.read at hok
  rw [h1] at hok
  simp only [Bind.bind, Except.bind] at hok
  rw [h2] at hok
  simp only [Bind.bind, Except.bind] at hok
  rw [h3] at hok
  simp only [Bind.bind, Except.bind] at hok
  obtain ⟨⟨w, s5⟩, h5, hok⟩ := bind_ok_inv hok
  have hp5 : s5.pos = (guardDrop (s2.pos + size) s3).pos + 4 := (readU32BE_ok' h5).2.2
  split at hok
  · simp [throw, throwThe, MonadExceptOf.throw] at hok
  · simp only [pure, Except.pure, Except.ok.injEq, Prod.mk.injEq] at hok
    have hs' : s' = s5 := hok.2.symm
    rw [hs', hp5, hgpos]
    omega

/-- Witness for C2 on an `EOF_` chunk with `size = 2`: the two body bytes
are drained through the checksum reader and the final position is
`0 + 12 + 2`. -/
theorem c2_witness :
    (⟨[0, 0, 0, 2, 69, 79, 70, 95, 7, 8, 172, 241, 133, 125], 14,
      crcUpdate (crcUpdate (crcUpdate crcInitState [69, 79, 70, 95]) [7, 8])
        [172, 241, 133, 125]⟩ : CRStream).pos = 0 + 12 + 2 :=
  (c2_position_after_chunk
    ⟨[0, 0, 0, 2, 69, 79, 70, 95, 7, 8, 172, 241, 133, 125], 0, crcInitState⟩ 2
    ⟨[0, 0, 0, 2, 69, 79, 70, 95, 7, 8, 172, 241, 133, 125], 4,
      crcUpdate crcInitState [0, 0, 0, 2]⟩ "EOF_"
    ⟨[0, 0, 0, 2, 69, 79, 70, 95, 7, 8, 172, 241, 133, 125], 8,
      crcUpdate crcInitState [69, 79, 70, 95]⟩ .endOfFile
    ⟨[0, 0, 0, 2, 69, 79, 70, 95, 7, 8, 172, 241, 133, 125], 8,
      crcUpdate crcInitState [69, 79, 70, 95]⟩
    rfl rfl rfl (by decide)).1 .endOfFile
    ⟨[0, 0, 0, 2, 69, 79, 70, 95, 7, 8, 172, 241, 133, 125], 14,
      crcUpdate (crcUpdate (crcUpdate crcInitState [69, 79, 70, 95]) [7, 8])
        [172, 241, 133, 125]⟩ (by decide)

/-! ## File-header version handling (claim C6) -/

/-- C6 (amended): `FileHeaderChunk::read` computes the version as
`(version_field >> 16) as u8` — the low byte of the upper 16 bits of the
little-endian first word — and fails with `InvalidFileHeaderVersion`
exactly when that byte is neither 2 nor 3; version 2 leaves
`command_counts` absent, and version 3 populates it from the subsequent
big-endian `u32` fields (at body offsets 12, 16 and 36–56). -/
theorem c6_fhdr_version (s : CRStream) (sz : Nat) (vf : Nat) (s1 : CRStream)
    (h : readU32LE s = .ok (vf, s1)) :
    (vf / 65536 % 256 ≠ 2 ∧ vf / 65536 % 256 ≠ 3 →
      FileHeaderChunk.read s sz =
        .error (.invalidFileHeaderVersion (vf / 65536 % 256))) ∧
    (∀ c s', FileHeaderChunk.read s sz = .ok (c, s') →
      c.version = vf / 65536 % 256 ∧
      (c.version = 2 → c.commandCounts = none) ∧
      (c.version = 3 → c.commandCounts = some
        ⟨be32At s.data (s.pos + 12), be32At s.data (s.pos + 16),
         be32At s.data (s.pos + 36), be32At s.data (s.pos + 40),
         be32At s.data (s.pos + 44), be32At s.data (s.pos + 48),
         be32At s.data (s.pos + 52), be32At s.data (s.pos + 56)⟩)) := by
  have hd1 := readU32LE_ok h
  constructor
  · intro hne
    unfold FileHeaderChunk.read
    rw [h]
    simp only [Bind.bind, Except.bind]
    rw [if_pos hne]
  · intro c s' hok
    unfold FileHeaderChunk.read at hok
    rw [h] at hok
    simp only [Bind.bind, Except.bind] at hok
    by_cases hv : vf / 65536 % 256 ≠ 2 ∧ vf / 65536 % 256 ≠ 3
    · rw [if_pos hv] at hok
      simp [throw, throwThe, MonadExceptOf.throw] at hok
    · rw [if_neg hv] at hok
      simp only [pure, Except.pure, Bind.bind, Except.bind] at hok
      obtain ⟨⟨pt, s2⟩, h2, hok⟩ := bind_ok_inv hok
      obtain ⟨hd2, hp2⟩ := readFixedString_ok h2
      obtain ⟨⟨ef, s3⟩, h3, hok⟩ := bind_ok_inv hok
      obtain ⟨_, hd3, hp3⟩ := readU32BE_ok' h3
      by_cases h3v : vf / 65536 % 256 = 3
      · rw [if_pos h3v] at hok
        obtain ⟨⟨adir, s4⟩, h4, hok⟩ := bind_ok_inv hok
        obtain ⟨hv4, hd4, hp4⟩ := readU32BE_ok' h4
        obtain ⟨⟨deld, s5⟩, h5, hok⟩ := bind_ok_inv hok
        obtain ⟨hv5, hd5, hp5⟩ := readU32BE_ok' h5
        obtain ⟨⟨lo, s6⟩, h6, hok⟩ := bind_ok_inv hok
        obtain ⟨hv6, hd6, hp6⟩ := readU32BE_ok' h6
        obtain ⟨⟨hi, s7⟩, h7, hok⟩ := bind_ok_inv hok
        obtain ⟨hv7, hd7, hp7⟩ := readU32BE_ok' h7
        obtain ⟨⟨mv, s8⟩, h8, hok⟩ := bind_ok_inv hok
        obtain ⟨hv8, hd8, hp8⟩ := readU32BE_ok' h8
        obtain ⟨⟨rn, s9⟩, h9, hok⟩ := bind_ok_inv hok
        obtain ⟨hv9, hd9, hp9⟩ := readU32BE_ok' h9
        obtain ⟨⟨tot, s10⟩, h10, hok⟩ := bind_ok_inv hok
        obtain ⟨hv10, hd10, hp10⟩ := readU32BE_ok' h10
        obtain ⟨⟨sa, s11⟩, h11, hok⟩ := bind_ok_inv hok
        obtain ⟨hv11, hd11, hp11⟩ := readU32BE_ok' h11
        obtain ⟨⟨sd, s12⟩, h12, hok⟩ := bind_ok_inv hok
        obtain ⟨hv12, hd12, hp12⟩ := readU32BE_ok' h12
        obtain ⟨⟨se, s13⟩, h13, hok⟩ := bind_ok_inv hok
        obtain ⟨hv13, hd13, hp13⟩ := readU32BE_ok' h13
        obtain ⟨⟨sh, s14⟩, h14, hok⟩ := bind_ok_inv hok
        obtain ⟨hv14, hd14, hp14⟩ := readU32BE_ok' h14
        obtain ⟨⟨sf, s15⟩, h15, hok⟩ := bind_ok_inv hok
        obtain ⟨hv15, hd15, hp15⟩ := readU32BE_ok' h15
        dsimp only at *
        simp only [pure, Except.pure, Except.ok.injEq, Prod.mk.injEq] at hok
        obtain ⟨hc, _⟩ := hok
        have hdd : s1.data = s.data := hd1.2.1
        have hda : s3.data = s.data := by rw [hd3, hd2, hdd]
        have hpa : s3.pos = s.pos + 12 := by
          have := hd1.2.2
          omega
        refine ⟨by rw [← hc], ?_, ?_⟩
        · intro hver
          rw [← hc] at hver
          simp at hver
          omega
        · intro _
          rw [← hc]
          simp only [FileHeaderChunk.commandCounts, Option.some.injEq]
          have e4 : adir = be32At s.data (s.pos + 12) := by rw [hv4, hda, hpa]
          have e5 : deld = be32At s.data (s.pos + 16) := by
            rw [hv5, hd4, hda]
            congr 1
            omega
          have e10 : tot = be32At s.data (s.pos + 36) := by
            rw [hv10]
            rw [show s9.data = s.data by rw [hd9, hd8, hd7, hd6, hd5, hd4, hda]]
            congr 1
            omega
          have e11 : sa = be32At s.data (s.pos + 40) := by
            rw [hv11]
            rw [show s10.data = s.data by
              rw [hd10, hd9, hd8, hd7, hd6, hd5, hd4, hda]]
            congr 1
            omega
          have e12 : sd = be32At s.data (s.pos + 44) := by
            rw [hv12]
            rw [show s11.data = s.data by
              rw [hd11, hd10, hd9, hd8, hd7, hd6, hd5, hd4, hda]]
            congr 1
            omega
          have e13 : se = be32At s.data (s.pos + 48) := by
            rw [hv13]
            rw [show s12.data = s.data by
              rw [hd12, hd11, hd10, hd9, hd8, hd7, hd6, hd5, hd4, hda]]
            congr 1
            omega
          have e14 : sh = be32At s.data (s.pos + 52) := by
            rw [hv14]
            rw [show s13.data = s.data by
              rw [hd13, hd12, hd11, hd10, hd9, hd8, hd7, hd6, hd5, hd4, hda]]
            congr 1
            omega
          have e15 : sf = be32At s.data (s.pos + 56) := by
            rw [hv15]
            rw [show s14.data = s.data by
              rw [hd14, hd13, hd12, hd11, hd10, hd9, hd8, hd7, hd6, hd5, hd4, hda]]
            congr 1
            omega
          rw [e4, e5, e10, e11, e12, e13, e14, e15]
      · rw [if_neg h3v] at hok
        simp only [pure, Except.pure, Except.ok.injEq, Prod.mk.injEq] at hok
        obtain ⟨hc, _⟩ := hok
        refine ⟨by rw [← hc], fun _ => by rw [← hc], fun hver => ?_⟩
        rw [← hc] at hver
        simp at hver
        omega

/-- Witness for C6 on a version-2 file header. -/
theorem c6_witness :
    (⟨2, "HIST", 1, none, 0, 0, 0, 0, 0⟩ : FileHeaderChunk).commandCounts = none :=
  ((c6_fhdr_version ⟨[0, 0, 2, 0, 72, 73, 83, 84, 0, 0, 0, 1], 0, crcInitState⟩ 12
      131072 ⟨[0, 0, 2, 0, 72, 73, 83, 84, 0, 0, 0, 1], 4,
        crcUpdate crcInitState [0, 0, 2, 0]⟩ rfl).2
    ⟨2, "HIST", 1, none, 0, 0, 0, 0, 0⟩
    ⟨[0, 0, 2, 0, 72, 73, 83, 84, 0, 0, 0, 1], 12,
      crcUpdate crcInitState [0, 0, 2, 0, 72, 73, 83, 84, 0, 0, 0, 1]⟩
    (by decide)).2.1 rfl

/-- Witness for C10: operation byte `Z` (90) decodes like an `AddFile`. -/
theorem c10_witness :
    SqpkFile.read ⟨[90, 0, 0, 0, 0, 0, 0, 0, 0, 0, 0, 0, 0, 0, 0, 0, 0, 0, 0,
        0, 0, 0, 1, 0, 0, 0, 0, 97], 0, crcInitState⟩ 28 =
      SqpkFile.readRest .addFile ⟨[90, 0, 0, 0, 0, 0, 0, 0, 0, 0, 0, 0, 0, 0,
        0, 0, 0, 0, 0, 0, 0, 0, 1, 0, 0, 0, 0, 97], 1,
        crcUpdate crcInitState [90]⟩ 28 :=
  ((c10_unknown_fileop_byte
    ⟨[90, 0, 0, 0, 0, 0, 0, 0, 0, 0, 0, 0, 0, 0, 0, 0, 0, 0, 0, 0, 0, 0, 1, 0,
      0, 0, 0, 97], 0, crcInitState⟩
    ⟨[90, 0, 0, 0, 0, 0, 0, 0, 0, 0, 0, 0, 0, 0, 0, 0, 0, 0, 0, 0, 0, 0, 1, 0,
      0, 0, 0, 97], 1, crcUpdate crcInitState [90]⟩
    90 28 rfl rfl).1).1

/-! ## Open-with-retry behaviour (claim C9) -/

theorem waitLoop_ok_spec (attempts : Nat → OpenOutcome) (tries : Nat) :
    ∀ remaining i j, waitLoop attempts tries i remaining = .okStream j →
      attempts j = .ok ∧ i ≤ j ∧ j + 1 ≤ i + max remaining 1 ∧
      ∀ m, i ≤ m → m < j → retryableOutcome (attempts m) := by
  intro remaining
  induction remaining using Nat.strong_induction_on with
  | _ remaining ih =>
    intro i j h
    unfold waitLoop at h
    split at h
    next ha =>
      simp only [WaitResult.okStream.injEq] at h
      subst h
      exact ⟨ha, le_refl i, by omega, fun m h1 h2 => by omega⟩
    next k ha =>
      split at h
      next hgt =>
        split at h
        next hk =>
          obtain ⟨h1, h2, h3, h4⟩ := ih (remaining - 1) (by omega) (i + 1) j h
          refine ⟨h1, by omega, by omega, ?_⟩
          intro m him hmj
          by_cases hmi : m = i
          · subst hmi
            rw [ha]
            rcases hk with hk | hk <;> rw [hk]
            · exact Or.inl rfl
            · exact Or.inr rfl
          · exact h4 m (by omega) hmj
        next => simp at h
      next => simp at h
    next ha =>
      split at h <;> simp at h

theorem waitLoop_errIo_spec (attempts : Nat → OpenOutcome) (tries : Nat) :
    ∀ remaining i k, waitLoop attempts tries i remaining = .errIo k →
      k ≠ .permissionDenied ∧ k ≠ .wouldBlock ∧
      ∃ j, attempts j = .ioErr k ∧ i ≤ j ∧
        ∀ m, i ≤ m → m < j → retryableOutcome (attempts m) := by
  intro remaining
  induction remaining using Nat.strong_induction_on with
  | _ remaining ih =>
    intro i k h
    unfold waitLoop at h
    split at h
    next => simp at h
    next k' ha =>
      split at h
      next hgt =>
        split at h
        next hk =>
          obtain ⟨h1, h2, j, h3, h4, h5⟩ := ih (remaining - 1) (by omega) (i + 1) k h
          refine ⟨h1, h2, j, h3, by omega, ?_⟩
          intro m him hmj
          by_cases hmi : m = i
          · subst hmi
            rw [ha]
            rcases hk with hk | hk <;> rw [hk]
            · exact Or.inl rfl
            · exact Or.inr rfl
          · exact h5 m (by omega) hmj
        next hk =>
          simp only [WaitResult.errIo.injEq] at h
          subst h
          push_neg at hk
          exact ⟨hk.1, hk.2, i, ha, le_refl i, fun m h1 h2 => by omega⟩
      next => simp at h
    next ha =>
      split at h <;> simp at h

theorem waitLoop_exhausted_spec (attempts : Nat → OpenOutcome) (tries : Nat) :
    ∀ remaining i, 1 ≤ remaining →
      (∀ m, i ≤ m → m + 1 < i + remaining → retryableOutcome (attempts m)) →
      attempts (i + remaining - 1) ≠ .ok →
      waitLoop attempts tries i remaining = .retryExhausted tries := by
  intro remaining
  induction remaining using Nat.strong_induction_on with
  | _ remaining ih =>
    intro i h1 hmid hlast
    unfold waitLoop
    split
    next ha =>
      exfalso
      by_cases hr : remaining = 1
      · subst hr
        exact hlast (by simpa using ha)
      · have := hmid i (le_refl i) (by omega)
        rw [ha] at this
        rcases this with h | h <;> simp at h
    next k ha =>
      split
      next hgt =>
        have hki : retryableOutcome (attempts i) := hmid i (le_refl i) (by omega)
        rw [ha] at hki
        have hk : k = .permissionDenied ∨ k = .wouldBlock := by
          rcases hki with h | h
          · exact Or.inl (by injection h)
          · exact Or.inr (by injection h)
        rw [if_pos hk]
        apply ih (remaining - 1) (by omega) (i + 1) (by omega)
        · intro m hm1 hm2
          exact hmid m (by omega) (by omega)
        · have heq : i + 1 + (remaining - 1) - 1 = i + remaining - 1 := by omega
          rw [heq]
          exact hlast
      next => rfl
    next ha =>
      by_cases hr : remaining ≤ 1
      · rw [if_pos hr]
      · rw [if_neg hr]
        exfalso
        have := hmid i (le_refl i) (by omega)
        rw [ha] at this
        rcases this with h | h <;> simp at h

/-- C9 (amended): the retry loop of `wait_for_stream` retries only on
`PermissionDenied` or `WouldBlock` I/O errors (sleeping between retries),
performing at most `tries - 1` retries; a non-retryable open error is
returned unchanged only while more than one try remains — once at most one
try remains, any failed attempt (retryable or not) is converted into
`FileStreamRetryExhausted { path, tries }`. -/
theorem c9_wait_for_stream (attempts : Nat → OpenOutcome) (tries : Nat) :
    (∀ j, waitForStream attempts tries = .okStream j →
      attempts j = .ok ∧ j + 1 ≤ max tries 1 ∧
      ∀ m, m < j → retryableOutcome (attempts m)) ∧
    (∀ k, waitForStream attempts tries = .errIo k →
      k ≠ .permissionDenied ∧ k ≠ .wouldBlock ∧
      ∃ j, attempts j = .ioErr k ∧
        ∀ m, m < j → retryableOutcome (attempts m)) ∧
    ((∀ m, m + 1 < tries → retryableOutcome (attempts m)) →
      attempts (tries - 1) ≠ .ok → 1 ≤ tries →
      waitForStream attempts tries = .retryExhausted tries) := by
  refine ⟨?_, ?_, ?_⟩
  · intro j h
    obtain ⟨h1, _, h3, h4⟩ := waitLoop_ok_spec attempts tries tries 0 j h
    exact ⟨h1, by omega, fun m hm => h4 m (by omega) hm⟩
  · intro k h
    obtain ⟨h1, h2, j, h3, _, h5⟩ := waitLoop_errIo_spec attempts tries tries 0 k h
    exact ⟨h1, h2, j, h3, fun m hm => h5 m (by omega) hm⟩
  · intro hmid hlast h1
    exact waitLoop_exhausted_spec attempts tries tries 0 h1
      (fun m hm1 hm2 => hmid m (by omega)) (by simpa using hlast)

/-- Witness for C9: one `PermissionDenied` failure followed by a
successful open, with `tries = 5`. -/
theorem c9_witness :
    (fun i => if i = 0 then OpenOutcome.ioErr .permissionDenied else .ok) 1 =
        .ok ∧
      1 + 1 ≤ max 5 1 ∧
      retryableOutcome
        ((fun i => if i = 0 then OpenOutcome.ioErr .permissionDenied else .ok) 0) :=
  have X := (c9_wait_for_stream
    (fun i => if i = 0 then OpenOutcome.ioErr .permissionDenied else .ok) 5).1
    1 (by simp [waitForStream, waitLoop])
  ⟨X.1, X.2.1, X.2.2 0 (by decide)⟩

/-! ## Integer-range helpers and compressed-block framing (claim C5) -/

theorem toSigned32_range (v : Nat) (h : v < 2 ^ 32) :
    -(2 ^ 31) ≤ toSigned 32 v ∧ toSigned 32 v < 2 ^ 31 := by
  unfold toSigned
  constructor <;> split <;> omega

theorem i32Wrap_eq_self (x : Int) (h0 : -(2 ^ 31) ≤ x) (h1 : x < 2 ^ 31) :
    i32Wrap x = x := by
  have hm : x.emod (2 ^ 32) = x % (2 ^ 32) := rfl
  unfold i32Wrap toSigned u32OfInt
  rw [hm]
  split <;> omega

theorem u64OfInt_eq_toNat (x : Int) (h0 : 0 ≤ x) (h1 : x < 2 ^ 64) :
    u64OfInt x = x.toNat := by
  have hm : x.emod (2 ^ 64) = x % (2 ^ 64) := rfl
  unfold u64OfInt
  rw [hm]
  omega

theorem calculateCompressedBlockLength_range (cs ds : Int) :
    -(2 ^ 31) ≤ calculateCompressedBlockLength cs ds ∧
      calculateCompressedBlockLength cs ds < 2 ^ 31 := by
  unfold calculateCompressedBlockLength
  apply toSigned32_range
  have h : Nat.land (u32OfInt ((if cs ≠ 0x7d00 then cs else ds) + 143)) 0xFFFFFF80 ≤
      0xFFFFFF80 := Nat.and_le_right
  omega

theorem beNat_fold_lt :
    ∀ (bs : List Nat) (acc : Nat), (∀ b ∈ bs, b < 256) →
      bs.foldl (fun a b => a * 256 + b) acc < (acc + 1) * 256 ^ bs.length := by
  intro bs
  induction bs with
  | nil =>
    intro acc h
    simpa using Nat.lt_succ_self acc
  | cons b t ih =>
    intro acc h
    have hb : b < 256 := h b (List.mem_cons_self b t)
    have ht : ∀ x ∈ t, x < 256 := fun x hx => h x (List.mem_cons_of_mem b hx)
    simp only [List.foldl_cons, List.length_cons]
    calc t.foldl (fun a b => a * 256 + b) (acc * 256 + b)
        < (acc * 256 + b + 1) * 256 ^ t.length := ih (acc * 256 + b) ht
      _ ≤ ((acc + 1) * 256) * 256 ^ t.length :=
          Nat.mul_le_mul (by omega) (le_refl _)
      _ = (acc + 1) * 256 ^ (t.length + 1) := by ring

theorem leNat_lt (bs : List Nat) (h : ∀ b ∈ bs, b < 256) :
    leNat bs < 256 ^ bs.length := by
  unfold leNat beNat
  have h' : ∀ b ∈ bs.reverse, b < 256 := fun b hb => h b (List.mem_reverse.mp hb)
  have := beNat_fold_lt bs.reverse 0 h'
  simpa using this

theorem readI32LE_ok {s : CRStream} {v : Int} {s' : CRStream}
    (hbytes : ∀ b ∈ s.data, b < 256) (h : readI32LE s = .ok (v, s')) :
    s'.data = s.data ∧ s'.pos = s.pos + 4 ∧ -(2 ^ 31) ≤ v ∧ v < 2 ^ 31 := by
  unfold readI32LE at h
  obtain ⟨⟨bs, s1⟩, hb, hf⟩ := bind_ok_inv h
  obtain ⟨h1, h2, h3⟩ := readBytes_ok hb
  simp only [pure, Except.pure, Except.ok.injEq, Prod.mk.injEq] at hf
  have hmem : ∀ b ∈ bs, b < 256 := by
    intro b hbm
    rw [h2] at hbm
    exact hbytes b (List.mem_of_mem_drop (List.mem_of_mem_take hbm))
  have hlen : bs.length ≤ 4 := by
    rw [h2]
    exact List.length_take_le _ _
  have hval : leNat bs < 2 ^ 32 := by
    calc leNat bs < 256 ^ bs.length := leNat_lt bs hmem
      _ ≤ 256 ^ 4 := Nat.pow_le_pow_right (by omega) hlen
      _ = 2 ^ 32 := by norm_num
  obtain ⟨hr1, hr2⟩ := toSigned32_range (leNat bs) hval
  refine ⟨?_, ?_, ?_, ?_⟩
  · rw [← hf.2, h3]
  · rw [← hf.2, h3]
  · rw [← hf.1]; exact hr1
  · rw [← hf.1]; exact hr2

/-- C5 (amended): for every successfully decoded compressed block whose
`header_size` lies in `[0, padded_length]` — where
`padded_length = (payload + 143) & ~0x7F` with `payload = compressed_size`
for a compressed block and `decompressed_size` for a raw one — the decoder
consumes exactly `padded_length - header_size` body bytes after the
16-byte header when the block is compressed; when the block is raw
(`compressed_size = 0x7D00`, `decompressed_size ≥ 0`) it consumes
`decompressed_size` data bytes plus `max 0 (padded_length - header_size -
decompressed_size)` filler bytes — equal to `padded_length - header_size`
whenever `header_size + decompressed_size ≤ padded_length`, but not in
general — and a raw block bypasses deflate: `decompress_into` appends its
stored bytes (of length `decompressed_size`) to the output verbatim and in
particular never fails with `DecompressionFailed`. -/
theorem c5_block_framing (s s' : CRStream) (b : SqpkCompressedBlock)
    (hbytes : ∀ x ∈ s.data, x < 256)
    (h : SqpkCompressedBlock.readFrom s = .ok (b, s'))
    (hhs0 : 0 ≤ b.headerSize)
    (hhs1 : b.headerSize ≤ b.compressedBlockLength) :
    (b.isCompressed = true →
      (s'.pos : Int) = s.pos + 16 + (b.compressedBlockLength - b.headerSize) ∧
      (b.compressedBlock.length : Int) = b.compressedBlockLength - b.headerSize) ∧
    (b.isCompressed = false → 0 ≤ b.decompressedSize →
      (s'.pos : Int) = s.pos + 16 + b.decompressedSize +
        max 0 (b.compressedBlockLength - b.headerSize - b.decompressedSize) ∧
      (b.compressedBlock.length : Int) = b.decompressedSize ∧
      (b.headerSize + b.decompressedSize ≤ b.compressedBlockLength →
        (s'.pos : Int) = s.pos + 16 + (b.compressedBlockLength - b.headerSize))) ∧
    (b.isCompressed = false →
      ∀ inflate out, SqpkCompressedBlock.decompressInto inflate b out =
        .ok (out ++ b.compressedBlock)) := by
  unfold SqpkCompressedBlock.readFrom at h
  obtain ⟨⟨hs0, s1⟩, h1, h⟩ := bind_ok_inv h
  obtain ⟨⟨pad, s2⟩, h2, h⟩ := bind_ok_inv h
  obtain ⟨⟨cs0, s3⟩, h3, h⟩ := bind_ok_inv h
  obtain ⟨⟨ds0, s4⟩, h4, h⟩ := bind_ok_inv h
  obtain ⟨hd1, hp1, hl1, hu1⟩ := readI32LE_ok hbytes h1
  have hbytes1 : ∀ x ∈ s1.data, x < 256 := by rw [hd1]; exact hbytes
  obtain ⟨_, hd2, hp2⟩ := readU32LE_ok h2
  have hbytes2 : ∀ x ∈ s2.data, x < 256 := by rw [hd2]; exact hbytes1
  obtain ⟨hd3, hp3, hl3, hu3⟩ := readI32LE_ok hbytes2 h3
  have hbytes3 : ∀ x ∈ s3.data, x < 256 := by rw [hd3]; exact hbytes2
  obtain ⟨hd4, hp4, hl4, hu4⟩ := readI32LE_ok hbytes3 h4
  dsimp only at h
  obtain ⟨hcb1, hcb2⟩ := calculateCompressedBlockLength_range cs0 ds0
  split at h
  case isTrue hcomp =>
    obtain ⟨⟨block, s5⟩, h5, h⟩ := bind_ok_inv h
    simp only [pure, Except.pure, Except.ok.injEq, Prod.mk.injEq] at h
    obtain ⟨hb, hs'⟩ := h
    subst hb
    subst hs'
    simp only [SqpkCompressedBlock.compressedBlockLength,
      SqpkCompressedBlock.isCompressed] at hhs0 hhs1 ⊢
    have hwrap : i32Wrap (calculateCompressedBlockLength cs0 ds0 - hs0) =
        calculateCompressedBlockLength cs0 ds0 - hs0 :=
      i32Wrap_eq_self _ (by omega) (by omega)
    have hn : u64OfInt (i32Wrap (calculateCompressedBlockLength cs0 ds0 - hs0)) =
        (calculateCompressedBlockLength cs0 ds0 - hs0).toNat := by
      rw [hwrap]
      exact u64OfInt_eq_toNat _ (by omega) (by omega)
    rw [hn] at h5
    obtain ⟨hg5, hb5, hs5⟩ := readBytes_ok h5
    refine ⟨fun _ => ⟨?_, ?_⟩, fun hic => ?_, fun hic => ?_⟩
    · rw [hs5]
      push_cast
      omega
    · rw [hb5, List.length_take, List.length_drop]
      push_cast
      omega
    · rw [hcomp] at hic
      exact absurd hic (by simp)
    · rw [hcomp] at hic
      exact absurd hic (by simp)
  case isFalse hcomp =>
    have hcs : cs0 = 0x7d00 := by simpa using hcomp
    obtain ⟨⟨block, s5⟩, h5, h⟩ := bind_ok_inv h
    dsimp only at h
    split at h
    case isTrue hpad =>
      obtain ⟨⟨padb, s6⟩, h6, h⟩ := bind_ok_inv h
      simp only [pure, Except.pure, Except.ok.injEq, Prod.mk.injEq] at h
      obtain ⟨hb, hs'⟩ := h
      subst hb
      subst hs'
      simp only [SqpkCompressedBlock.compressedBlockLength,
        SqpkCompressedBlock.isCompressed,
        SqpkCompressedBlock.decompressInto] at hhs0 hhs1 ⊢
      refine ⟨fun hic => absurd hic (by simp [hcs]), fun _ hds => ?_,
        fun _ inflate out => by simp [hcs]⟩
      have hwrap1 : i32Wrap (calculateCompressedBlockLength cs0 ds0 - hs0) =
          calculateCompressedBlockLength cs0 ds0 - hs0 :=
        i32Wrap_eq_self _ (by omega) (by omega)
      have hwrap2 : i32Wrap (i32Wrap (calculateCompressedBlockLength cs0 ds0 - hs0)
          - ds0) = calculateCompressedBlockLength cs0 ds0 - hs0 - ds0 := by
        rw [hwrap1]
        exact i32Wrap_eq_self _ (by omega) (by omega)
      rw [hwrap2] at hpad h6
      have hn5 : u64OfInt ds0 = ds0.toNat := u64OfInt_eq_toNat _ hds (by omega)
      have hn6 : u64OfInt (calculateCompressedBlockLength cs0 ds0 - hs0 - ds0) =
          (calculateCompressedBlockLength cs0 ds0 - hs0 - ds0).toNat :=
        u64OfInt_eq_toNat _ (by omega) (by omega)
      rw [hn5] at h5
      rw [hn6] at h6
      obtain ⟨hg5, hb5, hs5⟩ := readBytes_ok h5
      obtain ⟨hg6, hb6, hs6⟩ := readBytes_ok h6
      refine ⟨?_, ?_, fun _ => ?_⟩
      · rw [hs6, hs5]
        push_cast
        omega
      · rw [hb5, List.length_take, List.length_drop]
        rw [hs5] at hg6
        push_cast
        omega
      · rw [hs6, hs5]
        push_cast
        omega
    case isFalse hpad =>
      simp only [pure, Except.pure, Except.ok.injEq, Prod.mk.injEq] at h
      obtain ⟨hb, hs'⟩ := h
      subst hb
      subst hs'
      simp only [SqpkCompressedBlock.compressedBlockLength,
        SqpkCompressedBlock.isCompressed,
        SqpkCompressedBlock.decompressInto] at hhs0 hhs1 ⊢
      refine ⟨fun hic => absurd hic (by simp [hcs]), fun _ hds => ?_,
        fun _ inflate out => by simp [hcs]⟩
      have hwrap1 : i32Wrap (calculateCompressedBlockLength cs0 ds0 - hs0) =
          calculateCompressedBlockLength cs0 ds0 - hs0 :=
        i32Wrap_eq_self _ (by omega) (by omega)
      have hwrap2 : i32Wrap (i32Wrap (calculateCompressedBlockLength cs0 ds0 - hs0)
          - ds0) = calculateCompressedBlockLength cs0 ds0 - hs0 - ds0 := by
        rw [hwrap1]
        exact i32Wrap_eq_self _ (by omega) (by omega)
      rw [hwrap2] at hpad
      have hn5 : u64OfInt ds0 = ds0.toNat := u64OfInt_eq_toNat _ hds (by omega)
      rw [hn5] at h5
      obtain ⟨hg5, hb5, hs5⟩ := readBytes_ok h5
      refine ⟨?_, ?_, fun hle => ?_⟩
      · rw [hs5]
        push_cast
        omega
      · rw [hb5, List.length_take, List.length_drop]
        push_cast
        omega
      · rw [hs5]
        push_cast
        omega

/-- Witness for C5: a raw block (`compressed_size = 0x7D00`) with
`header_size = 120` and `decompressed_size = 1`; the padded length is
`(1 + 143) & ~0x7F = 128`, the decoder consumes `16 + 1 + 7 = 24` bytes,
and `decompress_into` copies the stored byte verbatim. -/
theorem c5_witness :
    (∀ x ∈ ([120, 0, 0, 0, 0, 0, 0, 0, 0, 125, 0, 0, 1, 0, 0, 0, 7] ++
        List.replicate 7 0 : List Nat), x < 256) ∧
    SqpkCompressedBlock.readFrom
        ⟨[120, 0, 0, 0, 0, 0, 0, 0, 0, 125, 0, 0, 1, 0, 0, 0, 7] ++
          List.replicate 7 0, 0, crcInitState⟩ =
      .ok (⟨120, 0x7d00, 1, [7]⟩,
        ⟨[120, 0, 0, 0, 0, 0, 0, 0, 0, 125, 0, 0, 1, 0, 0, 0, 7] ++
          List.replicate 7 0, 24,
          crcUpdate crcInitState
            ([120, 0, 0, 0, 0, 0, 0, 0, 0, 125, 0, 0, 1, 0, 0, 0, 7] ++
              List.replicate 7 0)⟩) ∧
    0 ≤ (⟨120, 0x7d00, 1, [7]⟩ : SqpkCompressedBlock).headerSize ∧
    (⟨120, 0x7d00, 1, [7]⟩ : SqpkCompressedBlock).headerSize ≤
      (⟨120, 0x7d00, 1, [7]⟩ : SqpkCompressedBlock).compressedBlockLength ∧
    ((24 : Int) = 0 + 16 + 1 + max 0 (128 - 120 - 1) ∧
      (([7] : List Nat).length : Int) = 1) ∧
    SqpkCompressedBlock.decompressInto (fun _ => none)
        ⟨120, 0x7d00, 1, [7]⟩ [1, 2] = .ok ([1, 2] ++ [7]) :=
  have X := c5_block_framing
    ⟨[120, 0, 0, 0, 0, 0, 0, 0, 0, 125, 0, 0, 1, 0, 0, 0, 7] ++
      List.replicate 7 0, 0, crcInitState⟩
    ⟨[120, 0, 0, 0, 0, 0, 0, 0, 0, 125, 0, 0, 1, 0, 0, 0, 7] ++
      List.replicate 7 0, 24,
      crcUpdate crcInitState
        ([120, 0, 0, 0, 0, 0, 0, 0, 0, 125, 0, 0, 1, 0, 0, 0, 7] ++
          List.replicate 7 0)⟩
    ⟨120, 0x7d00, 1, [7]⟩
    (by decide) (by decide) (by decide) (by decide)
  ⟨by decide, by decide, by decide, by decide,
    ⟨by simpa using (X.2.1 (by decide) (by decide)).1,
      (X.2.1 (by decide) (by decide)).2.1⟩,
    X.2.2 (by decide) (fun _ => none) [1, 2]⟩

/-! ## File-state lemmas and the delete-data mutation (claim C7) -/

theorem replicate_zero_getD : ∀ (n i : Nat), (List.replicate n (0 : Nat)).getD i 0 = 0 := by
  intro n
  induction n with
  | zero => intro i; rfl
  | succ n ih =>
    intro i
    cases i with
    | zero => rfl
    | succ j =>
      simp only [List.replicate_succ, List.getD_cons_succ]
      exact ih j

theorem i32ToLeBytes_length (x : Int) : (i32ToLeBytes x).length = 4 := rfl

theorem u32OfInt_i32Wrap (x : Int) : u32OfInt (i32Wrap x) = u32OfInt x := by
  have hm : ∀ z : Int, z.emod (2 ^ 32) = z % (2 ^ 32) := fun _ => rfl
  unfold i32Wrap toSigned u32OfInt
  simp only [hm]
  split <;> omega

theorem i32ToLeBytes_i32Wrap (x : Int) : i32ToLeBytes (i32Wrap x) = i32ToLeBytes x := by
  unfold i32ToLeBytes
  rw [u32OfInt_i32Wrap]

theorem writeAll_append (a b : List Nat) (fs : FileState) :
    writeAll b (writeAll a fs) = writeAll (a ++ b) fs := by
  simp only [writeAll, List.length_append]
  congr 1
  · funext i
    by_cases h1 : fs.pos + a.length ≤ i ∧ i < fs.pos + a.length + b.length
    · rw [if_pos h1, if_pos (show fs.pos ≤ i ∧ i < fs.pos + (a.length + b.length) by omega),
        List.getD_append_right _ _ _ _ (by omega)]
      congr 1
      omega
    · rw [if_neg h1]
      by_cases h2 : fs.pos ≤ i ∧ i < fs.pos + a.length
      · rw [if_pos h2, if_pos (show fs.pos ≤ i ∧ i < fs.pos + (a.length + b.length) by omega),
          List.getD_append _ _ _ _ (by omega)]
      · rw [if_neg h2,
          if_neg (show ¬(fs.pos ≤ i ∧ i < fs.pos + (a.length + b.length)) by omega)]
  · omega

theorem wipeChunksLoop_eq : ∀ (k : Nat) (fs : FileState),
    wipeChunksLoop k fs =
      ⟨fun i => if fs.pos ≤ i ∧ i < fs.pos + k * 65536 then 0 else fs.contents i,
        fs.pos + k * 65536⟩ := by
  intro k
  induction k with
  | zero =>
    intro fs
    simp only [wipeChunksLoop, Nat.zero_mul, Nat.add_zero]
    cases fs with
    | mk c p =>
      congr 1
      funext i
      simp only
      rw [if_neg (by omega)]
  | succ k ih =>
    intro fs
    simp only [wipeChunksLoop]
    rw [ih]
    cases fs with
    | mk c p =>
      simp only [writeAll, List.length_replicate]
      congr 1
      · funext i
        by_cases h1 : p + 65536 ≤ i ∧ i < p + 65536 + k * 65536
        · rw [if_pos h1, if_pos (show p ≤ i ∧ i < p + (k + 1) * 65536 by omega)]
        · rw [if_neg h1]
          by_cases h2 : p ≤ i ∧ i < p + 65536
          · rw [if_pos h2, if_pos (show p ≤ i ∧ i < p + (k + 1) * 65536 by omega)]
            exact replicate_zero_getD _ _
          · rw [if_neg h2, if_neg (show ¬(p ≤ i ∧ i < p + (k + 1) * 65536) by omega)]
      · omega

theorem wipe_eq (L : Nat) (fs : FileState) :
    wipe L fs = writeAll (List.replicate L 0) fs := by
  simp only [wipe]
  rw [wipeChunksLoop_eq]
  cases fs with
  | mk c p =>
    simp only [writeAll, List.length_replicate]
    split
    case isTrue h =>
      congr 1
      · funext i
        by_cases h1 : p + L / 65536 * 65536 ≤ i ∧ i < p + L / 65536 * 65536 + L % 65536
        · rw [if_pos h1, if_pos (show p ≤ i ∧ i < p + L by omega)]
          rw [replicate_zero_getD, replicate_zero_getD]
        · rw [if_neg h1]
          by_cases h2 : p ≤ i ∧ i < p + L / 65536 * 65536
          · rw [if_pos h2, if_pos (show p ≤ i ∧ i < p + L by omega)]
            rw [replicate_zero_getD]
          · rw [if_neg h2, if_neg (show ¬(p ≤ i ∧ i < p + L) by omega)]
      · omega
    case isFalse h =>
      congr 1
      · funext i
        by_cases h2 : p ≤ i ∧ i < p + L / 65536 * 65536
        · rw [if_pos h2, if_pos (show p ≤ i ∧ i < p + L by omega)]
          rw [replicate_zero_getD]
        · rw [if_neg h2, if_neg (show ¬(p ≤ i ∧ i < p + L) by omega)]
      · omega

theorem readBack_writeAll (bs : List Nat) (fs : FileState) :
    readBackBytes (writeAll bs fs) fs.pos bs.length = bs := by
  unfold readBackBytes writeAll
  apply List.ext_getElem
  · simp
  · intro j h1 h2
    simp only [List.getElem_map, List.getElem_range]
    simp only [List.length_map, List.length_range] at h1
    rw [if_pos (by omega)]
    rw [List.getD_eq_getElem _ _ (by omega)]
    congr 1
    omega

/-- C7: applying an SQPK delete-data command (operation byte `D`) with a
non-negative 64-bit block offset and a 32-bit block number wipes
`block_number << 7` bytes at `block_offset` and then overwrites the first
20 of them with the empty-file-block header: the five little-endian `i32`
values `128, 0, 0, block_number - 1, 0`; the rest of the wiped range, up
to `block_offset + (block_number << 7)`, is zero. -/
theorem c7_delete_data_block (cmd : SqpkDeleteData) (fs : FileState)
    (hoff0 : 0 ≤ cmd.blockOffset) (hoff1 : cmd.blockOffset < 2 ^ 64)
    (hbn : cmd.blockNumber < 2 ^ 32) :
    readBackBytes (cmd.applyFile fs) cmd.blockOffset.toNat 20 =
      i32ToLeBytes 128 ++ i32ToLeBytes 0 ++ i32ToLeBytes 0 ++
        i32ToLeBytes ((cmd.blockNumber : Int) - 1) ++ i32ToLeBytes 0 ∧
    (∀ i, 20 ≤ i → i < cmd.blockNumber * 128 →
      (cmd.applyFile fs).contents (cmd.blockOffset.toNat + i) = 0) := by
  have hPoff : u64OfInt cmd.blockOffset = cmd.blockOffset.toNat :=
    u64OfInt_eq_toNat _ hoff0 hoff1
  have hL : u64OfInt ((cmd.blockNumber : Int) * 128) = cmd.blockNumber * 128 := by
    rw [u64OfInt_eq_toNat _ (by positivity) (by push_cast; omega)]
    omega
  simp only [SqpkDeleteData.applyFile, writeEmptyFileBlockAt, wipeFromOffset]
  rw [hPoff, hL, i32ToLeBytes_i32Wrap, wipe_eq,
    writeAll_append, writeAll_append, writeAll_append, writeAll_append]
  constructor
  · refine (readBack_writeAll
      (i32ToLeBytes 128 ++ (i32ToLeBytes 0 ++ (i32ToLeBytes 0 ++
        (i32ToLeBytes ((cmd.blockNumber : Int) - 1) ++ i32ToLeBytes 0))))
      (seekTo cmd.blockOffset.toNat
        (writeAll (List.replicate (cmd.blockNumber * 128) 0)
          (seekTo cmd.blockOffset.toNat fs)))).trans ?_
    simp [List.append_assoc]
  · intro i h20 hiL
    simp only [writeAll, seekTo, List.length_append, List.length_replicate,
      i32ToLeBytes_length]
    rw [if_neg (by omega)]
    rw [if_pos (by omega)]
    exact replicate_zero_getD _ _

/-- Witness for C7: block offset 32 and block number 2 applied to a file
holding byte 255 everywhere; byte 132 of the wiped 256-byte range is
zeroed and the 20-byte header reads back as `128, 0, 0, 1, 0`. -/
theorem c7_witness :
    0 ≤ (⟨⟨⟨0, 0, 0, ""⟩⟩, 32, 2⟩ : SqpkDeleteData).blockOffset ∧
    (⟨⟨⟨0, 0, 0, ""⟩⟩, 32, 2⟩ : SqpkDeleteData).blockOffset < 2 ^ 64 ∧
    (⟨⟨⟨0, 0, 0, ""⟩⟩, 32, 2⟩ : SqpkDeleteData).blockNumber < 2 ^ 32 ∧
    readBackBytes
        (SqpkDeleteData.applyFile ⟨⟨⟨0, 0, 0, ""⟩⟩, 32, 2⟩ ⟨fun _ => 255, 0⟩)
        (⟨⟨⟨0, 0, 0, ""⟩⟩, 32, 2⟩ : SqpkDeleteData).blockOffset.toNat 20 =
      i32ToLeBytes 128 ++ i32ToLeBytes 0 ++ i32ToLeBytes 0 ++
        i32ToLeBytes (((⟨⟨⟨0, 0, 0, ""⟩⟩, 32, 2⟩ :
          SqpkDeleteData).blockNumber : Int) - 1) ++ i32ToLeBytes 0 ∧
    (SqpkDeleteData.applyFile ⟨⟨⟨0, 0, 0, ""⟩⟩, 32, 2⟩ ⟨fun _ => 255, 0⟩).contents
        ((⟨⟨⟨0, 0, 0, ""⟩⟩, 32, 2⟩ : SqpkDeleteData).blockOffset.toNat + 100) = 0 :=
  have X := c7_delete_data_block ⟨⟨⟨0, 0, 0, ""⟩⟩, 32, 2⟩ ⟨fun _ => 255, 0⟩
    (by decide) (by decide) (by decide)
  ⟨by decide, by decide, by decide, X.1, X.2 100 (by decide) (by decide)⟩

end ZiPatchRust